import Mathlib

/-!
# Relay daemon configuration: `config.go`

A shallow embedding of `DefaultConfig` and `LoadConfig` from `config.go`, with
the parts of the Go runtime they call made explicit:

* `os.Open` is a lookup in a `FileSystem` value;
* `json.Decoder.Decode` is modelled on JSON values (`Json`), following the
  rules of `encoding/json` for the kinds of Go values that occur in `Config`
  (structs, `int`, `bool`, `time.Duration`, `[]string`);
* `relayv2.Resources`, `relayv2.DefaultResources` and the way the library type
  is unmarshalled are declared in go-libp2p, and are taken as a parameter
  (`Relayv2`); `libp2p` is the instance that models the library, and what is
  said about the fields below `RelayV2.Resources` is said about it.

The admission components described by the specification (ACL evaluator,
resource ledger) have no code in `config.go`; they are modelled from the
specification text, after the definitions for `config.go`.

All definitions come first, the theorems follow.
-/

namespace RelayDaemon

/-! ## Go values used by `config.go` -/

/-- Go `error` values that `LoadConfig` can return. -/
inductive Error
  /-- What `os.Open` returns when it fails (`*os.PathError`). -/
  | pathError (path : String) (msg : String)
  /-- What `Decoder.Decode` returns before it stores anything: a read error,
  `io.EOF` on an empty stream, or a `*json.SyntaxError`. -/
  | stream (msg : String)
  /-- The JSON `value` does not fit the Go type (`*json.UnmarshalTypeError`). -/
  | unmarshalType (value : String) (goType : String)
  /-- Any other error reported by a library unmarshaller. -/
  | library (msg : String)
  deriving DecidableEq, Repr

/-- A JSON number literal. `strconv.ParseInt` accepts exactly the literals
without fraction and exponent, so only those carry their value. -/
inductive Number
  | int (i : Int)
  | real (literal : String)
  deriving DecidableEq, Repr

/-- A JSON value as the decoder scans it; an object keeps its members in file
order, duplicates included. -/
inductive Json
  | null
  | bool (b : Bool)
  | num (n : Number)
  | str (s : String)
  | arr (xs : List Json)
  | obj (kvs : List (String × Json))
  deriving Repr

/-- A Go `[]string`. `nil` is the nil slice. `mk elems spare` is a non-nil
slice whose elements are `elems`; `spare` holds the cells of the backing array
between `len` and `cap`, which the JSON decoder can bring back into view. -/
inductive Slice
  | nil
  | mk (elems : List String) (spare : List String)
  deriving DecidableEq, Repr

/-- The elements of a slice (`s[0:len(s)]`). -/
def Slice.toList : Slice → List String
  | .nil => []
  | .mk elems _ => elems

/-- Go `len(s)`. -/
def Slice.len (s : Slice) : Nat := s.toList.length

/-- The cells of the backing array from index 0 up to `cap(s)`. -/
def Slice.cells : Slice → List String
  | .nil => []
  | .mk elems spare => elems ++ spare

/-- A slice literal `[]string{...}`: `len = cap`. -/
def Slice.lit (xs : List String) : Slice := .mk xs []

/-- Go `time.Minute`, in nanoseconds (`time.Duration` is an `int64` count of
nanoseconds). -/
def Minute : Int := 60 * 1000000000

/-! ## The configuration types (`config.go`, lines 11-60) -/

/-- Go `DaemonConfig`. -/
structure DaemonConfig where
  PprofPort : Int
  deriving DecidableEq, Repr

/-- Go `NetworkConfig`. -/
structure NetworkConfig where
  ListenAddrs : Slice
  AnnounceAddrs : Slice
  deriving DecidableEq, Repr

/-- Go `ConnMgrConfig`. -/
structure ConnMgrConfig where
  ConnMgrLo : Int
  ConnMgrHi : Int
  ConnMgrGrace : Int
  deriving DecidableEq, Repr

/-- Go `RelayV2Config`; `R` stands for `relayv2.Resources`. -/
structure RelayV2Config (R : Type) where
  Enabled : Bool
  Resources : R
  deriving DecidableEq, Repr

/-- Go `ACLConfig`. -/
structure ACLConfig where
  AllowPeers : Slice
  AllowSubnets : Slice
  deriving DecidableEq, Repr

/-- Go `Config`. -/
structure Config (R : Type) where
  Network : NetworkConfig
  ConnMgr : ConnMgrConfig
  RelayV2 : RelayV2Config R
  ACL : ACLConfig
  Daemon : DaemonConfig
  deriving DecidableEq, Repr

/-- The state of a `json` decode that matters to its caller: the first error
that was saved while decoding went on (`decodeState.savedError`). -/
structure decodeState where
  savedError : Option Error
  deriving DecidableEq, Repr

/-- Go `(*decodeState).saveError`: only the first error is kept. -/
def decodeState.saveError (d : decodeState) (err : Error) : decodeState :=
  match d.savedError with
  | none => ⟨some err⟩
  | some _ => d

/-- What `config.go` uses of package `relayv2` (go-libp2p): the type
`Resources` (here `R`), its Go zero value, `DefaultResources()`, and how
`encoding/json` stores a JSON value into a `Resources` that already holds a
value. -/
structure Relayv2 (R : Type) where
  zeroResources : R
  DefaultResources : R
  unmarshalResources : Json → R → decodeState → R × decodeState

/-! ## `DefaultConfig` (`config.go`, lines 62-98) -/

/-- Go `Config{}`: every field has its zero value. -/
def zeroConfig {R : Type} (relayv2 : Relayv2 R) : Config R :=
  { Network := { ListenAddrs := .nil, AnnounceAddrs := .nil }
    ConnMgr := { ConnMgrLo := 0, ConnMgrHi := 0, ConnMgrGrace := 0 }
    RelayV2 := { Enabled := false, Resources := relayv2.zeroResources }
    ACL := { AllowPeers := .nil, AllowSubnets := .nil }
    Daemon := { PprofPort := 0 } }

/-- The six default listen addresses. -/
def defaultListenAddrs : List String :=
  [ "/ip4/0.0.0.0/udp/9095/quic-v1",
    "/ip4/0.0.0.0/udp/9095/quic-v1/webtransport",
    "/ip4/0.0.0.0/tcp/4001",
    "/ip4/0.0.0.0/tcp/9096/ws",
    "/ip4/127.0.0.1/udp/9095/quic-v1/webtransport",
    "/ip4/127.0.0.1/udp/9095/quic-v1/webtransport/certhash/uEiAaP2zrOyYeIFmagpOQg0K_6R4eD6aPxrZBrXzRnsVNUQ/certhash/uEiA4yfEqqYgLIDMaoZFAOEUDjyFL6YYHj3Wc7tf9ll-atg/p2p/12D3KooWEbomrRWemnfMBfgNMHdQmduTYZGmmLzTUXydfwU1iohy" ]

/-- The one default announce address. -/
def defaultAnnounceAddrs : List String :=
  [ "/ip4/127.0.0.1/udp/9095/quic-v1/webtransport" ]

/-- Go `DefaultConfig`. The `ACL` field is not listed in the composite
literal, so it has its zero value. -/
def DefaultConfig {R : Type} (relayv2 : Relayv2 R) : Config R :=
  { Network :=
      { ListenAddrs := Slice.lit defaultListenAddrs
        AnnounceAddrs := Slice.lit defaultAnnounceAddrs }
    ConnMgr := { ConnMgrLo := 512, ConnMgrHi := 768, ConnMgrGrace := 2 * Minute }
    RelayV2 := { Enabled := true, Resources := relayv2.DefaultResources }
    ACL := { AllowPeers := .nil, AllowSubnets := .nil }
    Daemon := { PprofPort := 6060 } }

/-! ## `encoding/json`: storing a JSON value into the Go types of `Config` -/

/-- Go `foldRune` restricted to what can meet an ASCII letter: lower-case
ASCII letters go to upper case, and the two non-ASCII runes whose simple case
folding orbit contains an ASCII letter (U+017F, U+212A) go to that letter.
Every other rune is left alone; it can never equal a rune of a field name of
`Config`, all of which are ASCII. -/
def foldRune (c : Char) : Char :=
  if 'a' ≤ c ∧ c ≤ 'z' then Char.ofNat (c.toNat - 32)
  else if c = Char.ofNat 0x17F then 'S'
  else if c = Char.ofNat 0x212A then 'K'
  else c

/-- Go `foldName`: the key with every rune folded. -/
def foldName (s : String) : List Char := s.toList.map foldRune

/-- How `(*decodeState).object` pairs an object key with a struct field: an
exact match of the name, otherwise a match of the folded names. -/
def keyMatches (key : String) (field : String) : Bool :=
  key = field || foldName key = foldName field

/-- Smallest `int64`. -/
def minInt64 : Int := -9223372036854775808

/-- Largest `int64`. -/
def maxInt64 : Int := 9223372036854775807

/-- Storing into a Go `int`, `int64` or `time.Duration` (64-bit targets):
`null` has no effect, an integer literal in range is stored, everything else
saves an `UnmarshalTypeError` and leaves the value alone. For a number that
`strconv.ParseInt` refuses, the error names the literal
(`"number " + string(item)`). -/
def storeInt (goType : String) (item : Json) (v : Int) (d : decodeState) :
    Int × decodeState :=
  match item with
  | .null => (v, d)
  | .num (.int i) =>
    if minInt64 ≤ i ∧ i ≤ maxInt64 then (i, d)
    else (v, d.saveError (.unmarshalType ("number " ++ toString i) goType))
  | .num (.real literal) =>
    (v, d.saveError (.unmarshalType ("number " ++ literal) goType))
  | .bool _ => (v, d.saveError (.unmarshalType "bool" goType))
  | .str _ => (v, d.saveError (.unmarshalType "string" goType))
  | .arr _ => (v, d.saveError (.unmarshalType "array" goType))
  | .obj _ => (v, d.saveError (.unmarshalType "object" goType))

/-- Storing into a Go `bool`. -/
def storeBool (item : Json) (v : Bool) (d : decodeState) : Bool × decodeState :=
  match item with
  | .null => (v, d)
  | .bool b => (b, d)
  | .num _ => (v, d.saveError (.unmarshalType "number" "bool"))
  | .str _ => (v, d.saveError (.unmarshalType "string" "bool"))
  | .arr _ => (v, d.saveError (.unmarshalType "array" "bool"))
  | .obj _ => (v, d.saveError (.unmarshalType "object" "bool"))

/-- Storing into a Go `string` (`literalStore`): a JSON string is stored, and
`null` has no effect ("ignore null for primitives/string"), so the string
keeps what it held. -/
def storeString (item : Json) (v : String) (d : decodeState) : String × decodeState :=
  match item with
  | .null => (v, d)
  | .str s => (s, d)
  | .bool _ => (v, d.saveError (.unmarshalType "bool" "string"))
  | .num _ => (v, d.saveError (.unmarshalType "number" "string"))
  | .arr _ => (v, d.saveError (.unmarshalType "array" "string"))
  | .obj _ => (v, d.saveError (.unmarshalType "object" "string"))

/-- The loop of `(*decodeState).array` for a `[]string`: the slice is not
emptied first; the i-th JSON element is stored into the i-th cell
(`if i >= v.Len() { v.SetLen(i + 1) }`, then `d.value(v.Index(i))`). A cell
below `cap` holds what the backing array held there; a cell the slice had to
grow for starts as `""`. -/
def arrayElems : List Json → List String → decodeState → List String × decodeState
  | [], _, d => ([], d)
  | x :: xs, cells, d =>
    let r := storeString x (cells.headD "") d
    let rest := arrayElems xs cells.tail r.2
    (r.1 :: rest.1, rest.2)

/-- Storing into a Go `[]string`: `null` sets the nil slice, an empty array
sets a fresh empty slice (`reflect.MakeSlice(v.Type(), 0, 0)`), a non-empty
array is stored cell by cell and the length is cut to the number of elements
(`v.SetLen(i)`), which leaves the other cells as spare capacity; anything else
is a type error. -/
def storeSlice (item : Json) (v : Slice) (d : decodeState) : Slice × decodeState :=
  match item with
  | .null => (.nil, d)
  | .arr [] => (.mk [] [], d)
  | .arr (x :: xs) =>
    let r := arrayElems (x :: xs) v.cells d
    (.mk r.1 (v.cells.drop (x :: xs).length), r.2)
  | .bool _ => (v, d.saveError (.unmarshalType "bool" "[]string"))
  | .num _ => (v, d.saveError (.unmarshalType "number" "[]string"))
  | .str _ => (v, d.saveError (.unmarshalType "string" "[]string"))
  | .obj _ => (v, d.saveError (.unmarshalType "object" "[]string"))

/-- Go `(*decodeState).object` for a struct target: `null` has no effect, the
members of an object are stored one after the other in file order through
`field` (which finds the struct field for a key), anything else is a type
error. -/
def object {S : Type} (goType : String)
    (field : String → Json → S → decodeState → S × decodeState)
    (item : Json) (v : S) (d : decodeState) : S × decodeState :=
  match item with
  | .null => (v, d)
  | .obj kvs => kvs.foldl (fun acc kv => field kv.1 kv.2 acc.1 acc.2) (v, d)
  | .bool _ => (v, d.saveError (.unmarshalType "bool" goType))
  | .num _ => (v, d.saveError (.unmarshalType "number" goType))
  | .str _ => (v, d.saveError (.unmarshalType "string" goType))
  | .arr _ => (v, d.saveError (.unmarshalType "array" goType))

/-- One member of a JSON object stored into a `NetworkConfig`; a key that
matches no field is skipped. -/
def NetworkConfig.field (key : String) (item : Json) (v : NetworkConfig)
    (d : decodeState) : NetworkConfig × decodeState :=
  if keyMatches key "ListenAddrs" then
    let r := storeSlice item v.ListenAddrs d
    ({ v with ListenAddrs := r.1 }, r.2)
  else if keyMatches key "AnnounceAddrs" then
    let r := storeSlice item v.AnnounceAddrs d
    ({ v with AnnounceAddrs := r.1 }, r.2)
  else (v, d)

/-- One member of a JSON object stored into a `ConnMgrConfig`. -/
def ConnMgrConfig.field (key : String) (item : Json) (v : ConnMgrConfig)
    (d : decodeState) : ConnMgrConfig × decodeState :=
  if keyMatches key "ConnMgrLo" then
    let r := storeInt "int" item v.ConnMgrLo d
    ({ v with ConnMgrLo := r.1 }, r.2)
  else if keyMatches key "ConnMgrHi" then
    let r := storeInt "int" item v.ConnMgrHi d
    ({ v with ConnMgrHi := r.1 }, r.2)
  else if keyMatches key "ConnMgrGrace" then
    let r := storeInt "time.Duration" item v.ConnMgrGrace d
    ({ v with ConnMgrGrace := r.1 }, r.2)
  else (v, d)

/-- One member of a JSON object stored into a `RelayV2Config`. -/
def RelayV2Config.field {R : Type} (relayv2 : Relayv2 R) (key : String) (item : Json)
    (v : RelayV2Config R) (d : decodeState) : RelayV2Config R × decodeState :=
  if keyMatches key "Enabled" then
    let r := storeBool item v.Enabled d
    ({ v with Enabled := r.1 }, r.2)
  else if keyMatches key "Resources" then
    let r := relayv2.unmarshalResources item v.Resources d
    ({ v with Resources := r.1 }, r.2)
  else (v, d)

/-- One member of a JSON object stored into an `ACLConfig`. -/
def ACLConfig.field (key : String) (item : Json) (v : ACLConfig)
    (d : decodeState) : ACLConfig × decodeState :=
  if keyMatches key "AllowPeers" then
    let r := storeSlice item v.AllowPeers d
    ({ v with AllowPeers := r.1 }, r.2)
  else if keyMatches key "AllowSubnets" then
    let r := storeSlice item v.AllowSubnets d
    ({ v with AllowSubnets := r.1 }, r.2)
  else (v, d)

/-- One member of a JSON object stored into a `DaemonConfig`. -/
def DaemonConfig.field (key : String) (item : Json) (v : DaemonConfig)
    (d : decodeState) : DaemonConfig × decodeState :=
  if keyMatches key "PprofPort" then
    let r := storeInt "int" item v.PprofPort d
    ({ v with PprofPort := r.1 }, r.2)
  else (v, d)

/-- One member of a JSON object stored into a `Config`. -/
def Config.field {R : Type} (relayv2 : Relayv2 R) (key : String) (item : Json)
    (v : Config R) (d : decodeState) : Config R × decodeState :=
  if keyMatches key "Network" then
    let r := object "relaydaemon.NetworkConfig" NetworkConfig.field item v.Network d
    ({ v with Network := r.1 }, r.2)
  else if keyMatches key "ConnMgr" then
    let r := object "relaydaemon.ConnMgrConfig" ConnMgrConfig.field item v.ConnMgr d
    ({ v with ConnMgr := r.1 }, r.2)
  else if keyMatches key "RelayV2" then
    let r := object "relaydaemon.RelayV2Config" (RelayV2Config.field relayv2) item v.RelayV2 d
    ({ v with RelayV2 := r.1 }, r.2)
  else if keyMatches key "ACL" then
    let r := object "relaydaemon.ACLConfig" ACLConfig.field item v.ACL d
    ({ v with ACL := r.1 }, r.2)
  else if keyMatches key "Daemon" then
    let r := object "relaydaemon.DaemonConfig" DaemonConfig.field item v.Daemon d
    ({ v with Daemon := r.1 }, r.2)
  else (v, d)

/-- Go `(*decodeState).unmarshal` with `&cfg` as target: the value is stored
into the working copy and the first saved error, if any, is returned. The
working copy keeps what was stored before and after the error. -/
def unmarshal {R : Type} (relayv2 : Relayv2 R) (item : Json) (cfg : Config R) :
    Config R × Option Error :=
  let r := object "relaydaemon.Config" (Config.field relayv2) item cfg ⟨none⟩
  (r.1, r.2.savedError)

/-! ## Files -/

/-- What a `json.Decoder` finds when it reads the first JSON value from an
opened file: the read fails (I/O error, `io.EOF` on an empty file, syntax
error) or it has a complete value. Whatever follows that value in the file is
never read by a single `Decode`. -/
inductive File
  | invalid (err : Error)
  | value (j : Json)

/-- The file-system state `os.Open` sees: for each path either the error
`os.Open` returns or the file it opens. -/
structure FileSystem where
  Open : String → Except Error File

/-- Go `(*Decoder).Decode(&cfg)`: the working copy after the call and the
error returned. -/
def Decode {R : Type} (relayv2 : Relayv2 R) (file : File) (cfg : Config R) :
    Config R × Option Error :=
  match file with
  | .invalid err => (cfg, some err)
  | .value j => unmarshal relayv2 j cfg

/-- A file-system call made by `LoadConfig`. -/
inductive FsOp
  | openFile (path : String)
  | read (path : String)
  | close (path : String)
  deriving DecidableEq, Repr

/-- The two values `LoadConfig` returns, and the file-system calls it made on
the way, in order. -/
structure Outcome (R : Type) where
  cfg : Config R
  err : Option Error
  ops : List FsOp

/-! ## `LoadConfig` (`config.go`, lines 100-121) -/

/-- Go `LoadConfig`. -/
def LoadConfig {R : Type} (relayv2 : Relayv2 R) (fs : FileSystem) (cfgPath : String) :
    Outcome R :=
  let cfg := DefaultConfig relayv2
  if cfgPath ≠ "" then
    match fs.Open cfgPath with
    | .error err => ⟨zeroConfig relayv2, some err, [.openFile cfgPath]⟩
    | .ok cfgFile =>
      match Decode relayv2 cfgFile cfg with
      | (_, some err) =>
        ⟨zeroConfig relayv2, some err, [.openFile cfgPath, .read cfgPath, .close cfgPath]⟩
      | (cfg, none) =>
        ⟨cfg, none, [.openFile cfgPath, .read cfgPath, .close cfgPath]⟩
  else ⟨cfg, none, []⟩

/-! ## An instance of the library parameter

Used to run `LoadConfig` on concrete files. -/

/-- Modelled from the spec: `relayv2.RelayLimit`, the type behind the `Limit`
entry of the `Resources` schema (§6); it is declared in go-libp2p, not in
`config.go`. -/
structure RelayLimit where
  Duration : Int
  Data : Int
  deriving DecidableEq, Repr

/-- Modelled from the spec: `relayv2.Resources`, the schema
`Resources: { Limit, BufferSize, MaxCircuits, MaxReservations, ... }` of §6;
it is declared in go-libp2p, not in `config.go`. `Limit` is a Go pointer,
`none` is the nil pointer. -/
structure Resources where
  Limit : Option RelayLimit
  ReservationTTL : Int
  MaxReservations : Int
  MaxCircuits : Int
  BufferSize : Int
  MaxReservationsPerIP : Int
  MaxReservationsPerASN : Int
  deriving DecidableEq, Repr

/-- One member of a JSON object stored into a `RelayLimit`. -/
def RelayLimit.field (key : String) (item : Json) (v : RelayLimit)
    (d : decodeState) : RelayLimit × decodeState :=
  if keyMatches key "Duration" then
    let r := storeInt "time.Duration" item v.Duration d
    ({ v with Duration := r.1 }, r.2)
  else if keyMatches key "Data" then
    let r := storeInt "int64" item v.Data d
    ({ v with Data := r.1 }, r.2)
  else (v, d)

/-- Storing into a `*RelayLimit`: `null` sets the nil pointer; any other value
is stored into the struct pointed to, which is allocated with zero fields when
the pointer is nil. -/
def storeLimit (item : Json) (v : Option RelayLimit) (d : decodeState) :
    Option RelayLimit × decodeState :=
  match item with
  | .null => (none, d)
  | _ =>
    let r := object "relay.RelayLimit" RelayLimit.field item (v.getD ⟨0, 0⟩) d
    (some r.1, r.2)

/-- One member of a JSON object stored into a `Resources`. -/
def Resources.field (key : String) (item : Json) (v : Resources)
    (d : decodeState) : Resources × decodeState :=
  if keyMatches key "Limit" then
    let r := storeLimit item v.Limit d
    ({ v with Limit := r.1 }, r.2)
  else if keyMatches key "ReservationTTL" then
    let r := storeInt "time.Duration" item v.ReservationTTL d
    ({ v with ReservationTTL := r.1 }, r.2)
  else if keyMatches key "MaxReservations" then
    let r := storeInt "int" item v.MaxReservations d
    ({ v with MaxReservations := r.1 }, r.2)
  else if keyMatches key "MaxCircuits" then
    let r := storeInt "int" item v.MaxCircuits d
    ({ v with MaxCircuits := r.1 }, r.2)
  else if keyMatches key "BufferSize" then
    let r := storeInt "int" item v.BufferSize d
    ({ v with BufferSize := r.1 }, r.2)
  else if keyMatches key "MaxReservationsPerIP" then
    let r := storeInt "int" item v.MaxReservationsPerIP d
    ({ v with MaxReservationsPerIP := r.1 }, r.2)
  else if keyMatches key "MaxReservationsPerASN" then
    let r := storeInt "int" item v.MaxReservationsPerASN d
    ({ v with MaxReservationsPerASN := r.1 }, r.2)
  else (v, d)

/-- Modelled from the spec: package `relayv2` of go-libp2p as `config.go`
uses it, with the library defaults for the `Resources` schema of §6. -/
def libp2p : Relayv2 Resources where
  zeroResources := ⟨none, 0, 0, 0, 0, 0, 0⟩
  DefaultResources :=
    { Limit := some { Duration := 2 * Minute, Data := 131072 }
      ReservationTTL := 60 * Minute
      MaxReservations := 128
      MaxCircuits := 16
      BufferSize := 2048
      MaxReservationsPerIP := 8
      MaxReservationsPerASN := 32 }
  unmarshalResources := object "relay.Resources" Resources.field

/-- A file system with no file at all: every `os.Open` fails. -/
def emptyFS : FileSystem where
  Open := fun path => .error (.pathError path "no such file or directory")

/-- A file system with one file, `path`. -/
def oneFileFS (path : String) (file : File) : FileSystem where
  Open := fun p => if p = path then .ok file else .error (.pathError p "no such file or directory")


/-! ## Naming the fields of `Config` -/

/-- Whether a JSON value has members along `path`: an object member whose key
the decoder pairs with the first name, and whose value has members along the
rest of the path. The decoder reaches a field of `Config` only through such
members. -/
def mentions : List String → Json → Bool
  | [], _ => true
  | name :: rest, .obj kvs => kvs.any (fun kv => keyMatches kv.1 name && mentions rest kv.2)
  | _ :: _, _ => false

/-- The fields declared in `config.go`: the five fields of `Config` and the
fields of each of them. -/
inductive Field
  | Network
  | ListenAddrs
  | AnnounceAddrs
  | ConnMgr
  | ConnMgrLo
  | ConnMgrHi
  | ConnMgrGrace
  | RelayV2
  | Enabled
  | Resources
  | ACL
  | AllowPeers
  | AllowSubnets
  | Daemon
  | PprofPort
  deriving DecidableEq, Repr

/-- The Go names on the way from `Config` to the field. -/
def Field.path : Field → List String
  | .Network => ["Network"]
  | .ListenAddrs => ["Network", "ListenAddrs"]
  | .AnnounceAddrs => ["Network", "AnnounceAddrs"]
  | .ConnMgr => ["ConnMgr"]
  | .ConnMgrLo => ["ConnMgr", "ConnMgrLo"]
  | .ConnMgrHi => ["ConnMgr", "ConnMgrHi"]
  | .ConnMgrGrace => ["ConnMgr", "ConnMgrGrace"]
  | .RelayV2 => ["RelayV2"]
  | .Enabled => ["RelayV2", "Enabled"]
  | .Resources => ["RelayV2", "Resources"]
  | .ACL => ["ACL"]
  | .AllowPeers => ["ACL", "AllowPeers"]
  | .AllowSubnets => ["ACL", "AllowSubnets"]
  | .Daemon => ["Daemon"]
  | .PprofPort => ["Daemon", "PprofPort"]

/-- Two configurations hold the same value in field `f`. -/
def Field.sameIn {R : Type} (f : Field) (a b : Config R) : Prop :=
  match f with
  | .Network => a.Network = b.Network
  | .ListenAddrs => a.Network.ListenAddrs = b.Network.ListenAddrs
  | .AnnounceAddrs => a.Network.AnnounceAddrs = b.Network.AnnounceAddrs
  | .ConnMgr => a.ConnMgr = b.ConnMgr
  | .ConnMgrLo => a.ConnMgr.ConnMgrLo = b.ConnMgr.ConnMgrLo
  | .ConnMgrHi => a.ConnMgr.ConnMgrHi = b.ConnMgr.ConnMgrHi
  | .ConnMgrGrace => a.ConnMgr.ConnMgrGrace = b.ConnMgr.ConnMgrGrace
  | .RelayV2 => a.RelayV2 = b.RelayV2
  | .Enabled => a.RelayV2.Enabled = b.RelayV2.Enabled
  | .Resources => a.RelayV2.Resources = b.RelayV2.Resources
  | .ACL => a.ACL = b.ACL
  | .AllowPeers => a.ACL.AllowPeers = b.ACL.AllowPeers
  | .AllowSubnets => a.ACL.AllowSubnets = b.ACL.AllowSubnets
  | .Daemon => a.Daemon = b.Daemon
  | .PprofPort => a.Daemon.PprofPort = b.Daemon.PprofPort

/-! ## Example files -/

/-- The file `{"ConnMgr": {"ConnMgrHi": 1000}, "Daemon": {"PprofPort": "x"}}`:
the first member is stored, the second one does not fit an `int`. -/
def badPortFile : File :=
  .value (.obj [("ConnMgr", .obj [("ConnMgrHi", .num (.int 1000))]),
                ("Daemon", .obj [("PprofPort", .str "x")])])

/-- What the working copy holds after decoding `badPortFile` over the
defaults: `ConnMgrHi` is already overwritten. -/
def badPortWork : Config Resources :=
  { DefaultConfig libp2p with
    ConnMgr := { ConnMgrLo := 512, ConnMgrHi := 1000, ConnMgrGrace := 2 * Minute } }

/-- The file `{"Daemon": {"PprofPort": "x"}}`: well-formed JSON, an object,
with no member for `ConnMgr`; the string does not fit the `int` field. -/
def portStringJson : Json :=
  .obj [("Daemon", .obj [("PprofPort", .str "x")])]

/-- The two list-valued fields of `NetworkConfig`. -/
inductive AddrField
  | ListenAddrs
  | AnnounceAddrs
  deriving DecidableEq, Repr

/-- The Go name of the field. -/
def AddrField.name : AddrField → String
  | .ListenAddrs => "ListenAddrs"
  | .AnnounceAddrs => "AnnounceAddrs"

/-- The value of the field in a `NetworkConfig`. -/
def AddrField.get : AddrField → NetworkConfig → Slice
  | .ListenAddrs, n => n.ListenAddrs
  | .AnnounceAddrs, n => n.AnnounceAddrs

/-- The addresses `DefaultConfig()` puts in the field. -/
def AddrField.defaults : AddrField → List String
  | .ListenAddrs => defaultListenAddrs
  | .AnnounceAddrs => defaultAnnounceAddrs

/-- The file `{"ConnMgr": {"ConnMgrHi": 1000}}`. -/
def hiOnlyJson : Json :=
  .obj [("ConnMgr", .obj [("ConnMgrHi", .num (.int 1000))])]

/-- The file `{"Network": {"ListenAddrs": [null]}}`. -/
def nullListenJson : Json :=
  .obj [("Network", .obj [("ListenAddrs", .arr [.null])])]

/-- The file
`{"Daemon": {"PprofPort": 7000},
  "network": {"ListenAddrs": ["/ip4/0.0.0.0/tcp/1"],
              "listenaddrs": ["/ip4/0.0.0.0/tcp/4001", "/ip4/10.0.0.1/tcp/4002"],
              "AnnounceAddrs": []},
  "ACL": null}`:
keys in lower case, and `ListenAddrs` given twice. -/
def twoListenJson : Json :=
  .obj [("Daemon", .obj [("PprofPort", .num (.int 7000))]),
        ("network", .obj [("ListenAddrs", .arr [.str "/ip4/0.0.0.0/tcp/1"]),
                          ("listenaddrs", .arr [.str "/ip4/0.0.0.0/tcp/4001",
                                                .str "/ip4/10.0.0.1/tcp/4002"]),
                          ("AnnounceAddrs", .arr [])]),
        ("ACL", .null)]

/-- The file
`{"ACL": {"AllowPeers": ["not a peer id"], "AllowSubnets": ["not/a/subnet"]}}`:
neither string is a peer identifier or a subnet in CIDR form. -/
def badAclJson : Json :=
  .obj [("ACL", .obj [("AllowPeers", .arr (["not a peer id"].map .str)),
                      ("AllowSubnets", .arr (["not/a/subnet"].map .str))])]

/-! ## The ACL evaluator (specification §4.1)

`config.go` declares `ACLConfig` and nothing that reads it. -/

/-- Modelled from the spec: `PeerRef` of §3, the stable identifier of a remote
peer; the entries of `ACLConfig.AllowPeers` are such identifiers. -/
abbrev PeerRef := String

/-- Modelled from the spec: the ACL evaluator `Allow(peer, addr) -> bool` of
§4.1, which is missing from `config.go`. A non-empty peer list requires the
peer to be in it, a non-empty subnet list requires the address to lie in one of
its entries, and the two requirements are combined with AND. `A` is
`AddressRef`, and `contains subnet addr` says whether the address lies in the
subnet; address matching is outside the specification. -/
def Allow {A : Type} (contains : String → A → Bool) (acl : ACLConfig)
    (peer : PeerRef) (addr : A) : Bool :=
  (if acl.AllowPeers.len ≠ 0 then decide (peer ∈ acl.AllowPeers.toList) else true) &&
  (if acl.AllowSubnets.len ≠ 0 then acl.AllowSubnets.toList.any (fun s => contains s addr)
   else true)

/-- Modelled from the spec: the `ACLCheck` step of the admission controller
(§4.4), missing from `config.go`: the request passes when the ACL evaluator
allows it, and is rejected with `ACLDenied` otherwise. -/
def ACLCheck {A : Type} (contains : String → A → Bool) (acl : ACLConfig)
    (peer : PeerRef) (addr : A) : Bool :=
  Allow contains acl peer addr

/-- An ACL whose lists are empty but not nil, as the file
`{"ACL": {"AllowPeers": [], "AllowSubnets": []}}` leaves them. -/
def emptyACL : ACLConfig :=
  { AllowPeers := .mk [] [], AllowSubnets := .mk [] [] }

/-! ## The resource ledger (specification §4.2)

Nothing of the ledger is in `config.go`. -/

/-- Modelled from the spec: the `kind` of a reservation request (§4.2). -/
inductive Kind
  | reservation
  | circuit
  | bytes
  deriving DecidableEq, Repr

/-- Modelled from the spec: `ResourceLimits` of §3, as far as the ledger
counters go: the cap configured for the peer-local counter and for the global
counter of each kind. -/
structure ResourceLimits where
  peer : Kind → Nat
  global : Kind → Nat

/-- Modelled from the spec: the release token `TryReserve` hands out (§4.2);
it records what it was issued for. -/
structure Token where
  id : Nat
  peer : PeerRef
  kind : Kind
  amount : Nat
  deriving DecidableEq, Repr

/-- Modelled from the spec: the resource ledger of §3 and §4.2, missing from
`config.go`: peer-local counters, the global aggregate, and the tokens that
were issued and not released yet. Counters are integers, so that a counter
below zero can be told apart from an empty one. -/
structure Ledger where
  peerCount : PeerRef → Kind → Int
  globalCount : Kind → Int
  live : List Token
  nextId : Nat

/-- The ledger before any request. -/
def Ledger.empty : Ledger :=
  { peerCount := fun _ _ => 0, globalCount := fun _ => 0, live := [], nextId := 0 }

/-- Modelled from the spec: `TryReserve(peer, kind, amount) -> (Token, ok)` of
§4.2. The peer-local and the global counter are checked against the limits;
on success both are incremented and a token is returned, on failure the ledger
is returned as it was and there is no token. -/
def TryReserve (limits : ResourceLimits) (l : Ledger) (peer : PeerRef) (kind : Kind)
    (amount : Nat) : Ledger × Option Token :=
  if l.peerCount peer kind + amount ≤ limits.peer kind ∧
      l.globalCount kind + amount ≤ limits.global kind then
    let tok : Token := { id := l.nextId, peer := peer, kind := kind, amount := amount }
    ({ peerCount := fun p k =>
         if p = peer ∧ k = kind then l.peerCount p k + amount else l.peerCount p k
       globalCount := fun k => if k = kind then l.globalCount k + amount else l.globalCount k
       live := tok :: l.live
       nextId := l.nextId + 1 }, some tok)
  else (l, none)

/-- Modelled from the spec: `Release(Token)` of §4.2. A token that is live
gives back what it was issued for; any other token (released before, or never
issued) changes nothing and is reported (`false`) as a logic error. -/
def Release (l : Ledger) (tok : Token) : Ledger × Bool :=
  if tok ∈ l.live then
    ({ peerCount := fun p k =>
         if p = tok.peer ∧ k = tok.kind then l.peerCount p k - tok.amount
         else l.peerCount p k
       globalCount := fun k =>
         if k = tok.kind then l.globalCount k - tok.amount else l.globalCount k
       live := l.live.erase tok
       nextId := l.nextId }, true)
  else (l, false)

/-- A call on the ledger. -/
inductive Op
  | tryReserve (peer : PeerRef) (kind : Kind) (amount : Nat)
  | release (tok : Token)

/-- The ledger after one call. -/
def Ledger.step (limits : ResourceLimits) (l : Ledger) : Op → Ledger
  | .tryReserve peer kind amount => (TryReserve limits l peer kind amount).1
  | .release tok => (Release l tok).1

/-- The ledger after a sequence of calls. -/
def Ledger.run (limits : ResourceLimits) (l : Ledger) (ops : List Op) : Ledger :=
  ops.foldl (Ledger.step limits) l

/-- What a live token contributes to the peer-local counter of `p` and `k`. -/
def Token.peerShare (p : PeerRef) (k : Kind) (t : Token) : Int :=
  if p = t.peer ∧ k = t.kind then (t.amount : Int) else 0

/-- What a live token contributes to the global counter of `k`. -/
def Token.globalShare (k : Kind) (t : Token) : Int :=
  if k = t.kind then (t.amount : Int) else 0

/-- The ledger is consistent: every counter is the sum of what the live tokens
hold, and no counter is above its limit. -/
structure Ledger.Consistent (limits : ResourceLimits) (l : Ledger) : Prop where
  peer_sum : ∀ p k, l.peerCount p k = (l.live.map (Token.peerShare p k)).sum
  global_sum : ∀ k, l.globalCount k = (l.live.map (Token.globalShare k)).sum
  peer_le : ∀ p k, l.peerCount p k ≤ limits.peer k
  global_le : ∀ k, l.globalCount k ≤ limits.global k

/-- Limits of the end-to-end example of §8: two reservations for the whole
relay, one for each peer. -/
def twoReservations : ResourceLimits :=
  { peer := fun _ => 1, global := fun _ => 2 }

/-- Three reservation requests from three peers, then a release of the first
token, twice, then a fourth request. -/
def exampleOps : List Op :=
  [ .tryReserve "P1" .reservation 1,
    .tryReserve "P2" .reservation 1,
    .tryReserve "P3" .reservation 1,
    .release { id := 0, peer := "P1", kind := .reservation, amount := 1 },
    .release { id := 0, peer := "P1", kind := .reservation, amount := 1 },
    .tryReserve "P3" .reservation 1 ]

/-! ## Naming the fields of `relayv2.Resources` -/

/-- Whether a JSON value has a member along `path` whose value is `null`: the
decoder stores the nil pointer into a pointer field only for such a member. -/
def setsNull : List String → Json → Bool
  | [], .null => true
  | [], _ => false
  | name :: rest, .obj kvs => kvs.any (fun kv => keyMatches kv.1 name && setsNull rest kv.2)
  | _ :: _, _ => false

/-- The fields below `RelayV2.Resources` in the library model `libp2p`: the
fields of `Resources`, and the two fields of the `RelayLimit` that the pointer
`Limit` points to. -/
inductive ResourcesField
  | Limit
  | LimitDuration
  | LimitData
  | ReservationTTL
  | MaxReservations
  | MaxCircuits
  | BufferSize
  | MaxReservationsPerIP
  | MaxReservationsPerASN
  deriving DecidableEq, Repr

/-- The Go names on the way from `Config` to the pointer `Limit`. -/
def limitPath : List String := ["RelayV2", "Resources", "Limit"]

/-- The Go names on the way from `Config` to the field. -/
def ResourcesField.path : ResourcesField → List String
  | .Limit => ["RelayV2", "Resources", "Limit"]
  | .LimitDuration => ["RelayV2", "Resources", "Limit", "Duration"]
  | .LimitData => ["RelayV2", "Resources", "Limit", "Data"]
  | .ReservationTTL => ["RelayV2", "Resources", "ReservationTTL"]
  | .MaxReservations => ["RelayV2", "Resources", "MaxReservations"]
  | .MaxCircuits => ["RelayV2", "Resources", "MaxCircuits"]
  | .BufferSize => ["RelayV2", "Resources", "BufferSize"]
  | .MaxReservationsPerIP => ["RelayV2", "Resources", "MaxReservationsPerIP"]
  | .MaxReservationsPerASN => ["RelayV2", "Resources", "MaxReservationsPerASN"]

/-- Whether the field is reached through the pointer `Limit`. -/
def ResourcesField.behindLimit : ResourcesField → Bool
  | .LimitDuration => true
  | .LimitData => true
  | _ => false

/-- Two configurations hold the same value in field `f`; for a field behind
the pointer `Limit`, both pointers are nil or both point to structs with the
same value in the field. -/
def ResourcesField.sameIn (f : ResourcesField) (a b : Config Resources) : Prop :=
  match f with
  | .Limit => a.RelayV2.Resources.Limit = b.RelayV2.Resources.Limit
  | .LimitDuration =>
    a.RelayV2.Resources.Limit.map (fun l => l.Duration) =
      b.RelayV2.Resources.Limit.map (fun l => l.Duration)
  | .LimitData =>
    a.RelayV2.Resources.Limit.map (fun l => l.Data) =
      b.RelayV2.Resources.Limit.map (fun l => l.Data)
  | .ReservationTTL =>
    a.RelayV2.Resources.ReservationTTL = b.RelayV2.Resources.ReservationTTL
  | .MaxReservations =>
    a.RelayV2.Resources.MaxReservations = b.RelayV2.Resources.MaxReservations
  | .MaxCircuits => a.RelayV2.Resources.MaxCircuits = b.RelayV2.Resources.MaxCircuits
  | .BufferSize => a.RelayV2.Resources.BufferSize = b.RelayV2.Resources.BufferSize
  | .MaxReservationsPerIP =>
    a.RelayV2.Resources.MaxReservationsPerIP = b.RelayV2.Resources.MaxReservationsPerIP
  | .MaxReservationsPerASN =>
    a.RelayV2.Resources.MaxReservationsPerASN = b.RelayV2.Resources.MaxReservationsPerASN

/-- The file
`{"RelayV2": {"Resources": {"Limit": null, "limit": {"Duration": 7}}}}`:
the first member sets the pointer `Limit` to nil, the second one stores into a
fresh `RelayLimit`; no member names `Data`. -/
def limitNullJson : Json :=
  .obj [("RelayV2", .obj [("Resources",
    .obj [("Limit", .null), ("limit", .obj [("Duration", .num (.int 7))])])])]

/-- The file
`{"RelayV2": {"Resources": {"Limit": {"Duration": 7}, "MaxCircuits": 32}}}`. -/
def limitDurationJson : Json :=
  .obj [("RelayV2", .obj [("Resources",
    .obj [("Limit", .obj [("Duration", .num (.int 7))]),
          ("MaxCircuits", .num (.int 32))])])]

/-! # Theorems -/

/-! ## `LoadConfig`: the control flow -/

section Control

variable {R : Type} (relayv2 : Relayv2 R)

theorem zeroConfig_ne_DefaultConfig : zeroConfig relayv2 ≠ DefaultConfig relayv2 := by
  intro h
  have h2 := congrArg (fun c => c.Daemon.PprofPort) h
  simp [zeroConfig, DefaultConfig] at h2

theorem LoadConfig_of_open_error (fs : FileSystem) (cfgPath : String) (err : Error)
    (hpath : cfgPath ≠ "") (hopen : fs.Open cfgPath = .error err) :
    LoadConfig relayv2 fs cfgPath = ⟨zeroConfig relayv2, some err, [.openFile cfgPath]⟩ := by
  simp [LoadConfig, hpath, hopen]

theorem LoadConfig_of_decode_error (fs : FileSystem) (cfgPath : String) (cfgFile : File)
    (work : Config R) (err : Error)
    (hpath : cfgPath ≠ "") (hopen : fs.Open cfgPath = .ok cfgFile)
    (hdec : Decode relayv2 cfgFile (DefaultConfig relayv2) = (work, some err)) :
    LoadConfig relayv2 fs cfgPath =
      ⟨zeroConfig relayv2, some err, [.openFile cfgPath, .read cfgPath, .close cfgPath]⟩ := by
  simp [LoadConfig, hpath, hopen, hdec]

theorem LoadConfig_of_decode_ok (fs : FileSystem) (cfgPath : String) (cfgFile : File)
    (work : Config R)
    (hpath : cfgPath ≠ "") (hopen : fs.Open cfgPath = .ok cfgFile)
    (hdec : Decode relayv2 cfgFile (DefaultConfig relayv2) = (work, none)) :
    LoadConfig relayv2 fs cfgPath =
      ⟨work, none, [.openFile cfgPath, .read cfgPath, .close cfgPath]⟩ := by
  simp [LoadConfig, hpath, hopen, hdec]

/-- C1: for every file-system state, `LoadConfig("")` returns a nil error and
exactly `DefaultConfig()`, and it makes no file-system call (nothing is opened
or read). -/
theorem LoadConfig_empty_path (fs : FileSystem) :
    (LoadConfig relayv2 fs "").err = none ∧
    (LoadConfig relayv2 fs "").cfg = DefaultConfig relayv2 ∧
    (LoadConfig relayv2 fs "").ops = [] := by
  simp [LoadConfig]

/-- C2: when the path is not empty, the file opens and decoding it over the
defaults fails with `err`, `LoadConfig` returns `err` and the zero `Config`,
which is not the default one, whatever the working copy `work` held when the
decoder returned. -/
theorem LoadConfig_malformed_file (fs : FileSystem) (cfgPath : String) (cfgFile : File)
    (work : Config R) (err : Error)
    (hpath : cfgPath ≠ "") (hopen : fs.Open cfgPath = .ok cfgFile)
    (hdec : Decode relayv2 cfgFile (DefaultConfig relayv2) = (work, some err)) :
    (LoadConfig relayv2 fs cfgPath).err = some err ∧
    (LoadConfig relayv2 fs cfgPath).cfg = zeroConfig relayv2 ∧
    (LoadConfig relayv2 fs cfgPath).cfg ≠ DefaultConfig relayv2 := by
  rw [LoadConfig_of_decode_error relayv2 fs cfgPath cfgFile work err hpath hopen hdec]
  exact ⟨rfl, rfl, zeroConfig_ne_DefaultConfig relayv2⟩

/-- C3: when the path is not empty and `os.Open` fails with `err` (a missing
file included), `LoadConfig` returns that same `err` and the zero `Config`,
never the default configuration; the file is not read. -/
theorem LoadConfig_unreadable_path (fs : FileSystem) (cfgPath : String) (err : Error)
    (hpath : cfgPath ≠ "") (hopen : fs.Open cfgPath = .error err) :
    (LoadConfig relayv2 fs cfgPath).err = some err ∧
    (LoadConfig relayv2 fs cfgPath).cfg = zeroConfig relayv2 ∧
    (LoadConfig relayv2 fs cfgPath).cfg ≠ DefaultConfig relayv2 ∧
    (LoadConfig relayv2 fs cfgPath).ops = [.openFile cfgPath] := by
  rw [LoadConfig_of_open_error relayv2 fs cfgPath err hpath hopen]
  exact ⟨rfl, rfl, zeroConfig_ne_DefaultConfig relayv2, rfl⟩

/-- C5: `DefaultConfig()` has no ACL entries (both allow lists have length 0),
has relay v2 enabled, and its resources are `relayv2.DefaultResources()`. -/
theorem DefaultConfig_no_acl_default_resources :
    (DefaultConfig relayv2).ACL.AllowPeers.len = 0 ∧
    (DefaultConfig relayv2).ACL.AllowSubnets.len = 0 ∧
    (DefaultConfig relayv2).ACL.AllowPeers.toList = [] ∧
    (DefaultConfig relayv2).ACL.AllowSubnets.toList = [] ∧
    (DefaultConfig relayv2).RelayV2.Enabled = true ∧
    (DefaultConfig relayv2).RelayV2.Resources = relayv2.DefaultResources := by
  simp [DefaultConfig, Slice.len, Slice.toList]

/-- C9: `LoadConfig` returns a non-nil error exactly when the path is not
empty and either `os.Open` fails or decoding the opened file over the defaults
fails; in every other case the error is nil and the returned `Config` is the
working copy: the defaults when the path is empty, the defaults with the file
decoded over them otherwise. -/
theorem LoadConfig_error_iff (fs : FileSystem) (cfgPath : String) :
    ((LoadConfig relayv2 fs cfgPath).err ≠ none ↔
      cfgPath ≠ "" ∧
        ((∃ err, fs.Open cfgPath = .error err) ∨
         (∃ cfgFile, fs.Open cfgPath = .ok cfgFile ∧
            (Decode relayv2 cfgFile (DefaultConfig relayv2)).2 ≠ none))) ∧
    ((LoadConfig relayv2 fs cfgPath).err = none →
      (cfgPath = "" → (LoadConfig relayv2 fs cfgPath).cfg = DefaultConfig relayv2) ∧
      (∀ cfgFile, cfgPath ≠ "" → fs.Open cfgPath = .ok cfgFile →
        (LoadConfig relayv2 fs cfgPath).cfg =
          (Decode relayv2 cfgFile (DefaultConfig relayv2)).1)) := by
  by_cases hpath : cfgPath = ""
  · subst hpath
    simp [LoadConfig]
  · cases hopen : fs.Open cfgPath with
    | error err =>
      rw [LoadConfig_of_open_error relayv2 fs cfgPath err hpath hopen]
      simp [hpath]
    | ok cfgFile =>
      rcases hdec : Decode relayv2 cfgFile (DefaultConfig relayv2) with ⟨work, _ | err⟩
      · rw [LoadConfig_of_decode_ok relayv2 fs cfgPath cfgFile work hpath hopen hdec]
        simp [hpath, hdec]
      · rw [LoadConfig_of_decode_error relayv2 fs cfgPath cfgFile work err hpath hopen hdec]
        simp [hpath, hdec]

end Control


/-! ## The decoder leaves alone what the file does not mention -/

section Frame

variable {R : Type} (relayv2 : Relayv2 R)

theorem foldl_field_frame {S α : Type} (field : String → Json → S → decodeState → S × decodeState)
    (get : S → α) (Q : String → Json → Prop)
    (hQ : ∀ k j v d, Q k j → get (field k j v d).1 = get v)
    (kvs : List (String × Json)) (h : ∀ kv ∈ kvs, Q kv.1 kv.2) (v : S) (d : decodeState) :
    get (kvs.foldl (fun acc kv => field kv.1 kv.2 acc.1 acc.2) (v, d)).1 = get v := by
  induction kvs generalizing v d with
  | nil => rfl
  | cons kv rest ih =>
    rw [List.foldl_cons]
    have hrest : ∀ kv2 ∈ rest, Q kv2.1 kv2.2 := fun kv2 hm => h kv2 (List.mem_cons_of_mem _ hm)
    have hstep := ih hrest (field kv.1 kv.2 v d).1 (field kv.1 kv.2 v d).2
    rw [hstep]
    exact hQ kv.1 kv.2 v d (h kv (List.mem_cons_self _ _))

theorem object_frame {S α : Type} (goType : String)
    (field : String → Json → S → decodeState → S × decodeState)
    (get : S → α) (Q : String → Json → Prop)
    (hQ : ∀ k j v d, Q k j → get (field k j v d).1 = get v)
    (item : Json) (h : ∀ kvs, item = .obj kvs → ∀ kv ∈ kvs, Q kv.1 kv.2)
    (v : S) (d : decodeState) :
    get (object goType field item v d).1 = get v := by
  cases item with
  | obj kvs => exact foldl_field_frame field get Q hQ kvs (h kvs rfl) v d
  | _ => rfl

theorem mentions_one_false (name : String) (item : Json)
    (h : mentions [name] item = false) :
    ∀ kvs, item = .obj kvs → ∀ kv ∈ kvs, keyMatches kv.1 name = false := by
  intro kvs hitem kv hkv
  subst hitem
  simp only [mentions, Bool.and_true, List.any_eq_false] at h
  simpa using h kv hkv

theorem mentions_two_false (outer inner : String) (item : Json)
    (h : mentions [outer, inner] item = false) :
    ∀ kvs, item = .obj kvs → ∀ kv ∈ kvs,
      keyMatches kv.1 outer = false ∨ mentions [inner] kv.2 = false := by
  intro kvs hitem kv hkv
  subst hitem
  simp only [mentions, List.any_eq_false] at h
  have := h kv hkv
  by_cases hk : keyMatches kv.1 outer = true
  · right
    cases hm : mentions [inner] kv.2 with
    | false => rfl
    | true => simp [hk, mentions, hm] at this
  · left
    simpa using hk

theorem NetworkConfig.field_ListenAddrs (k : String) (j : Json) (v : NetworkConfig)
    (d : decodeState) (h : keyMatches k "ListenAddrs" = false) :
    (NetworkConfig.field k j v d).1.ListenAddrs = v.ListenAddrs := by
  unfold NetworkConfig.field
  split_ifs <;> simp_all

theorem NetworkConfig.field_AnnounceAddrs (k : String) (j : Json) (v : NetworkConfig)
    (d : decodeState) (h : keyMatches k "AnnounceAddrs" = false) :
    (NetworkConfig.field k j v d).1.AnnounceAddrs = v.AnnounceAddrs := by
  unfold NetworkConfig.field
  split_ifs <;> simp_all

theorem ConnMgrConfig.field_ConnMgrLo (k : String) (j : Json) (v : ConnMgrConfig)
    (d : decodeState) (h : keyMatches k "ConnMgrLo" = false) :
    (ConnMgrConfig.field k j v d).1.ConnMgrLo = v.ConnMgrLo := by
  unfold ConnMgrConfig.field
  split_ifs <;> simp_all

theorem ConnMgrConfig.field_ConnMgrHi (k : String) (j : Json) (v : ConnMgrConfig)
    (d : decodeState) (h : keyMatches k "ConnMgrHi" = false) :
    (ConnMgrConfig.field k j v d).1.ConnMgrHi = v.ConnMgrHi := by
  unfold ConnMgrConfig.field
  split_ifs <;> simp_all

theorem ConnMgrConfig.field_ConnMgrGrace (k : String) (j : Json) (v : ConnMgrConfig)
    (d : decodeState) (h : keyMatches k "ConnMgrGrace" = false) :
    (ConnMgrConfig.field k j v d).1.ConnMgrGrace = v.ConnMgrGrace := by
  unfold ConnMgrConfig.field
  split_ifs <;> simp_all

theorem ACLConfig.field_AllowPeers (k : String) (j : Json) (v : ACLConfig)
    (d : decodeState) (h : keyMatches k "AllowPeers" = false) :
    (ACLConfig.field k j v d).1.AllowPeers = v.AllowPeers := by
  unfold ACLConfig.field
  split_ifs <;> simp_all

theorem ACLConfig.field_AllowSubnets (k : String) (j : Json) (v : ACLConfig)
    (d : decodeState) (h : keyMatches k "AllowSubnets" = false) :
    (ACLConfig.field k j v d).1.AllowSubnets = v.AllowSubnets := by
  unfold ACLConfig.field
  split_ifs <;> simp_all

theorem DaemonConfig.field_PprofPort (k : String) (j : Json) (v : DaemonConfig)
    (d : decodeState) (h : keyMatches k "PprofPort" = false) :
    (DaemonConfig.field k j v d).1.PprofPort = v.PprofPort := by
  unfold DaemonConfig.field
  split_ifs <;> simp_all

theorem RelayV2Config.field_Enabled (k : String) (j : Json) (v : RelayV2Config R)
    (d : decodeState) (h : keyMatches k "Enabled" = false) :
    (RelayV2Config.field relayv2 k j v d).1.Enabled = v.Enabled := by
  unfold RelayV2Config.field
  split_ifs <;> simp_all

theorem RelayV2Config.field_Resources (k : String) (j : Json) (v : RelayV2Config R)
    (d : decodeState) (h : keyMatches k "Resources" = false) :
    (RelayV2Config.field relayv2 k j v d).1.Resources = v.Resources := by
  unfold RelayV2Config.field
  split_ifs <;> simp_all

theorem Config.field_Network (k : String) (j : Json) (v : Config R) (d : decodeState) :
    (Config.field relayv2 k j v d).1.Network = v.Network ∨
    (keyMatches k "Network" = true ∧
      (Config.field relayv2 k j v d).1.Network =
        (object "relaydaemon.NetworkConfig" NetworkConfig.field j v.Network d).1) := by
  unfold Config.field
  split_ifs <;> simp_all

theorem Config.field_ConnMgr (k : String) (j : Json) (v : Config R) (d : decodeState) :
    (Config.field relayv2 k j v d).1.ConnMgr = v.ConnMgr ∨
    (keyMatches k "ConnMgr" = true ∧
      (Config.field relayv2 k j v d).1.ConnMgr =
        (object "relaydaemon.ConnMgrConfig" ConnMgrConfig.field j v.ConnMgr d).1) := by
  unfold Config.field
  split_ifs <;> simp_all

theorem Config.field_RelayV2 (k : String) (j : Json) (v : Config R) (d : decodeState) :
    (Config.field relayv2 k j v d).1.RelayV2 = v.RelayV2 ∨
    (keyMatches k "RelayV2" = true ∧
      (Config.field relayv2 k j v d).1.RelayV2 =
        (object "relaydaemon.RelayV2Config" (RelayV2Config.field relayv2) j v.RelayV2 d).1) := by
  unfold Config.field
  split_ifs <;> simp_all

theorem Config.field_ACL (k : String) (j : Json) (v : Config R) (d : decodeState) :
    (Config.field relayv2 k j v d).1.ACL = v.ACL ∨
    (keyMatches k "ACL" = true ∧
      (Config.field relayv2 k j v d).1.ACL =
        (object "relaydaemon.ACLConfig" ACLConfig.field j v.ACL d).1) := by
  unfold Config.field
  split_ifs <;> simp_all

theorem Config.field_Daemon (k : String) (j : Json) (v : Config R) (d : decodeState) :
    (Config.field relayv2 k j v d).1.Daemon = v.Daemon ∨
    (keyMatches k "Daemon" = true ∧
      (Config.field relayv2 k j v d).1.Daemon =
        (object "relaydaemon.DaemonConfig" DaemonConfig.field j v.Daemon d).1) := by
  unfold Config.field
  split_ifs <;> simp_all

theorem unmarshal_frame_top {α : Type} (get : Config R → α) (name : String)
    (hfield : ∀ k j v d, get (Config.field relayv2 k j v d).1 = get v ∨
      (keyMatches k name = true ∧ True))
    (item : Json) (cfg : Config R) (h : mentions [name] item = false) :
    get (unmarshal relayv2 item cfg).1 = get cfg := by
  refine object_frame _ _ get (fun k _ => keyMatches k name = false) ?_ item
    (mentions_one_false name item h) cfg ⟨none⟩
  intro k j v d hq
  rcases hfield k j v d with hsame | ⟨hk, _⟩
  · exact hsame
  · rw [hq] at hk
    exact absurd hk (by decide)

theorem unmarshal_frame_nested {S α : Type} (outer inner goType : String)
    (sub : Config R → S) (get : S → α)
    (field : String → Json → S → decodeState → S × decodeState)
    (htop : ∀ k j v d, sub (Config.field relayv2 k j v d).1 = sub v ∨
      (keyMatches k outer = true ∧
        sub (Config.field relayv2 k j v d).1 = (object goType field j (sub v) d).1))
    (hleaf : ∀ k j v d, keyMatches k inner = false → get (field k j v d).1 = get v)
    (item : Json) (cfg : Config R) (h : mentions [outer, inner] item = false) :
    get (sub (unmarshal relayv2 item cfg).1) = get (sub cfg) := by
  refine object_frame _ _ (fun c => get (sub c))
    (fun k j => keyMatches k outer = false ∨ mentions [inner] j = false) ?_ item
    (mentions_two_false outer inner item h) cfg ⟨none⟩
  intro k j v d hq
  rcases htop k j v d with hsame | ⟨hk, heq⟩
  · exact congrArg get hsame
  · rcases hq with hno | hno
    · rw [hno] at hk
      exact absurd hk (by decide)
    · show get (sub (Config.field relayv2 k j v d).1) = get (sub v)
      rw [heq]
      exact object_frame goType field get (fun k _ => keyMatches k inner = false)
        (fun k j v d hq => hleaf k j v d hq) j (mentions_one_false inner j hno) (sub v) d

theorem weaken_top {P Q : Prop} {b : Bool} (h : P ∨ (b = true ∧ Q)) : P ∨ (b = true ∧ True) :=
  h.imp id (fun hq => ⟨hq.1, trivial⟩)

/-- The working copy after `unmarshal` agrees with the copy before it in every
field the JSON value does not mention, whether or not an error was saved. -/
theorem unmarshal_frame (item : Json) (cfg : Config R) (f : Field)
    (h : mentions f.path item = false) :
    f.sameIn (unmarshal relayv2 item cfg).1 cfg := by
  cases f with
  | Network =>
    exact unmarshal_frame_top relayv2 (fun c => c.Network) "Network"
      (fun k j v d => weaken_top (Config.field_Network relayv2 k j v d)) item cfg h
  | ConnMgr =>
    exact unmarshal_frame_top relayv2 (fun c => c.ConnMgr) "ConnMgr"
      (fun k j v d => weaken_top (Config.field_ConnMgr relayv2 k j v d)) item cfg h
  | RelayV2 =>
    exact unmarshal_frame_top relayv2 (fun c => c.RelayV2) "RelayV2"
      (fun k j v d => weaken_top (Config.field_RelayV2 relayv2 k j v d)) item cfg h
  | ACL =>
    exact unmarshal_frame_top relayv2 (fun c => c.ACL) "ACL"
      (fun k j v d => weaken_top (Config.field_ACL relayv2 k j v d)) item cfg h
  | Daemon =>
    exact unmarshal_frame_top relayv2 (fun c => c.Daemon) "Daemon"
      (fun k j v d => weaken_top (Config.field_Daemon relayv2 k j v d)) item cfg h
  | ListenAddrs =>
    exact unmarshal_frame_nested relayv2 "Network" "ListenAddrs" _ (fun c => c.Network)
      (fun n => n.ListenAddrs) NetworkConfig.field (Config.field_Network relayv2)
      NetworkConfig.field_ListenAddrs item cfg h
  | AnnounceAddrs =>
    exact unmarshal_frame_nested relayv2 "Network" "AnnounceAddrs" _ (fun c => c.Network)
      (fun n => n.AnnounceAddrs) NetworkConfig.field (Config.field_Network relayv2)
      NetworkConfig.field_AnnounceAddrs item cfg h
  | ConnMgrLo =>
    exact unmarshal_frame_nested relayv2 "ConnMgr" "ConnMgrLo" _ (fun c => c.ConnMgr)
      (fun n => n.ConnMgrLo) ConnMgrConfig.field (Config.field_ConnMgr relayv2)
      ConnMgrConfig.field_ConnMgrLo item cfg h
  | ConnMgrHi =>
    exact unmarshal_frame_nested relayv2 "ConnMgr" "ConnMgrHi" _ (fun c => c.ConnMgr)
      (fun n => n.ConnMgrHi) ConnMgrConfig.field (Config.field_ConnMgr relayv2)
      ConnMgrConfig.field_ConnMgrHi item cfg h
  | ConnMgrGrace =>
    exact unmarshal_frame_nested relayv2 "ConnMgr" "ConnMgrGrace" _ (fun c => c.ConnMgr)
      (fun n => n.ConnMgrGrace) ConnMgrConfig.field (Config.field_ConnMgr relayv2)
      ConnMgrConfig.field_ConnMgrGrace item cfg h
  | Enabled =>
    exact unmarshal_frame_nested relayv2 "RelayV2" "Enabled" _ (fun c => c.RelayV2)
      (fun n => n.Enabled) (RelayV2Config.field relayv2) (Config.field_RelayV2 relayv2)
      (RelayV2Config.field_Enabled relayv2) item cfg h
  | Resources =>
    exact unmarshal_frame_nested relayv2 "RelayV2" "Resources" _ (fun c => c.RelayV2)
      (fun n => n.Resources) (RelayV2Config.field relayv2) (Config.field_RelayV2 relayv2)
      (RelayV2Config.field_Resources relayv2) item cfg h
  | AllowPeers =>
    exact unmarshal_frame_nested relayv2 "ACL" "AllowPeers" _ (fun c => c.ACL)
      (fun n => n.AllowPeers) ACLConfig.field (Config.field_ACL relayv2)
      ACLConfig.field_AllowPeers item cfg h
  | AllowSubnets =>
    exact unmarshal_frame_nested relayv2 "ACL" "AllowSubnets" _ (fun c => c.ACL)
      (fun n => n.AllowSubnets) ACLConfig.field (Config.field_ACL relayv2)
      ACLConfig.field_AllowSubnets item cfg h
  | PprofPort =>
    exact unmarshal_frame_nested relayv2 "Daemon" "PprofPort" _ (fun c => c.Daemon)
      (fun n => n.PprofPort) DaemonConfig.field (Config.field_Daemon relayv2)
      DaemonConfig.field_PprofPort item cfg h

/-- When `LoadConfig` returns a nil error for a file that holds the JSON value
`item`, it returns the working copy `unmarshal` left. -/
theorem LoadConfig_cfg_of_ok (fs : FileSystem) (cfgPath : String) (item : Json)
    (hpath : cfgPath ≠ "") (hopen : fs.Open cfgPath = .ok (.value item))
    (hok : (LoadConfig relayv2 fs cfgPath).err = none) :
    (unmarshal relayv2 item (DefaultConfig relayv2)).2 = none ∧
    (LoadConfig relayv2 fs cfgPath).cfg = (unmarshal relayv2 item (DefaultConfig relayv2)).1 := by
  rcases hdec : Decode relayv2 (.value item) (DefaultConfig relayv2) with ⟨work, _ | err⟩
  · rw [LoadConfig_of_decode_ok relayv2 fs cfgPath _ work hpath hopen hdec]
    simp only [Decode] at hdec
    rw [hdec]
    exact ⟨rfl, rfl⟩
  · rw [LoadConfig_of_decode_error relayv2 fs cfgPath _ work err hpath hopen hdec] at hok
    simp at hok

/-! ### Fields below `RelayV2.Resources` -/

theorem foldl_field_inv {S : Type} (field : String → Json → S → decodeState → S × decodeState)
    (I : S → Prop) (Q : String → Json → Prop)
    (hQ : ∀ k j v d, Q k j → I v → I (field k j v d).1)
    (kvs : List (String × Json)) (h : ∀ kv ∈ kvs, Q kv.1 kv.2) (v : S) (d : decodeState)
    (hv : I v) :
    I (kvs.foldl (fun acc kv => field kv.1 kv.2 acc.1 acc.2) (v, d)).1 := by
  induction kvs generalizing v d with
  | nil => exact hv
  | cons kv rest ih =>
    rw [List.foldl_cons]
    exact ih (fun kv2 hm => h kv2 (List.mem_cons_of_mem _ hm)) _ _
      (hQ kv.1 kv.2 v d (h kv (List.mem_cons_self _ _)) hv)

/-- One level of a struct: when the members of `item` either do not name the
field `name` or carry a value `P` holds of, and the decoder of the field keeps
`I` for such values, decoding `item` keeps `I` of the field. -/
theorem object_inv_step {S T : Type} (goType : String)
    (field : String → Json → S → decodeState → S × decodeState)
    (sub : S → T) (I : T → Prop) (name : String)
    (dec : Json → T → decodeState → T × decodeState) (P : Json → Prop)
    (hfield : ∀ k j v d, sub (field k j v d).1 = sub v ∨
      (keyMatches k name = true ∧ sub (field k j v d).1 = (dec j (sub v) d).1))
    (hdec : ∀ j v d, P j → I v → I (dec j v d).1)
    (item : Json) (v : S) (d : decodeState)
    (h : ∀ kvs, item = .obj kvs → ∀ kv ∈ kvs, keyMatches kv.1 name = false ∨ P kv.2)
    (hv : I (sub v)) :
    I (sub (object goType field item v d).1) := by
  cases item with
  | obj kvs =>
    refine foldl_field_inv field (fun s => I (sub s))
      (fun k j => keyMatches k name = false ∨ P j) ?_ kvs (h kvs rfl) v d hv
    intro k j v d hq hI
    rcases hfield k j v d with hsame | ⟨hk, heq⟩
    · show I (sub (field k j v d).1)
      rw [hsame]
      exact hI
    · rcases hq with hno | hp
      · rw [hno] at hk
        exact absurd hk (by decide)
      · show I (sub (field k j v d).1)
        rw [heq]
        exact hdec j (sub v) d hp hI
  | _ => exact hv

theorem mentions_nil_ne_false (j : Json) (h : mentions [] j = false) : False := by
  cases j <;> simp [mentions] at h

theorem mentions_cons_false (name : String) (rest : List String) (item : Json)
    (h : mentions (name :: rest) item = false) :
    ∀ kvs, item = .obj kvs → ∀ kv ∈ kvs,
      keyMatches kv.1 name = false ∨ mentions rest kv.2 = false := by
  intro kvs hitem kv hkv
  subst hitem
  simp only [mentions, List.any_eq_false] at h
  have := h kv hkv
  by_cases hk : keyMatches kv.1 name = true
  · right
    cases hm : mentions rest kv.2 with
    | false => rfl
    | true => simp [hk, hm] at this
  · left
    simpa using hk

theorem mentions_setsNull_cons_false (name : String) (rest rest2 : List String) (item : Json)
    (h1 : mentions (name :: rest) item = false) (h2 : setsNull (name :: rest2) item = false) :
    ∀ kvs, item = .obj kvs → ∀ kv ∈ kvs,
      keyMatches kv.1 name = false ∨
        (mentions rest kv.2 = false ∧ setsNull rest2 kv.2 = false) := by
  intro kvs hitem kv hkv
  subst hitem
  simp only [mentions, setsNull, List.any_eq_false] at h1 h2
  have a := h1 kv hkv
  have b := h2 kv hkv
  by_cases hk : keyMatches kv.1 name = true
  · right
    constructor
    · cases hm : mentions rest kv.2 with
      | false => rfl
      | true => simp [hk, hm] at a
    · cases hm : setsNull rest2 kv.2 with
      | false => rfl
      | true => simp [hk, hm] at b
  · left
    simpa using hk

theorem RelayV2Config.field_Resources_or {R : Type} (relayv2 : Relayv2 R) (k : String)
    (j : Json) (v : RelayV2Config R) (d : decodeState) :
    (RelayV2Config.field relayv2 k j v d).1.Resources = v.Resources ∨
    (keyMatches k "Resources" = true ∧
      (RelayV2Config.field relayv2 k j v d).1.Resources =
        (relayv2.unmarshalResources j v.Resources d).1) := by
  unfold RelayV2Config.field
  split_ifs <;> simp_all

theorem RelayLimit.field_Duration_or (k : String) (j : Json) (v : RelayLimit)
    (d : decodeState) :
    (RelayLimit.field k j v d).1.Duration = v.Duration ∨
    (keyMatches k "Duration" = true ∧
      (RelayLimit.field k j v d).1.Duration = (storeInt "time.Duration" j v.Duration d).1) := by
  unfold RelayLimit.field
  split_ifs <;> simp_all

theorem RelayLimit.field_Data_or (k : String) (j : Json) (v : RelayLimit)
    (d : decodeState) :
    (RelayLimit.field k j v d).1.Data = v.Data ∨
    (keyMatches k "Data" = true ∧
      (RelayLimit.field k j v d).1.Data = (storeInt "int64" j v.Data d).1) := by
  unfold RelayLimit.field
  split_ifs <;> simp_all

theorem Resources.field_Limit_or (k : String) (j : Json) (v : Resources)
    (d : decodeState) :
    (Resources.field k j v d).1.Limit = v.Limit ∨
    (keyMatches k "Limit" = true ∧
      (Resources.field k j v d).1.Limit = (storeLimit j v.Limit d).1) := by
  unfold Resources.field
  split_ifs <;> simp_all

theorem Resources.field_ReservationTTL_or (k : String) (j : Json) (v : Resources)
    (d : decodeState) :
    (Resources.field k j v d).1.ReservationTTL = v.ReservationTTL ∨
    (keyMatches k "ReservationTTL" = true ∧
      (Resources.field k j v d).1.ReservationTTL = (storeInt "time.Duration" j v.ReservationTTL d).1) := by
  unfold Resources.field
  split_ifs <;> simp_all

theorem Resources.field_MaxReservations_or (k : String) (j : Json) (v : Resources)
    (d : decodeState) :
    (Resources.field k j v d).1.MaxReservations = v.MaxReservations ∨
    (keyMatches k "MaxReservations" = true ∧
      (Resources.field k j v d).1.MaxReservations = (storeInt "int" j v.MaxReservations d).1) := by
  unfold Resources.field
  split_ifs <;> simp_all

theorem Resources.field_MaxCircuits_or (k : String) (j : Json) (v : Resources)
    (d : decodeState) :
    (Resources.field k j v d).1.MaxCircuits = v.MaxCircuits ∨
    (keyMatches k "MaxCircuits" = true ∧
      (Resources.field k j v d).1.MaxCircuits = (storeInt "int" j v.MaxCircuits d).1) := by
  unfold Resources.field
  split_ifs <;> simp_all

theorem Resources.field_BufferSize_or (k : String) (j : Json) (v : Resources)
    (d : decodeState) :
    (Resources.field k j v d).1.BufferSize = v.BufferSize ∨
    (keyMatches k "BufferSize" = true ∧
      (Resources.field k j v d).1.BufferSize = (storeInt "int" j v.BufferSize d).1) := by
  unfold Resources.field
  split_ifs <;> simp_all

theorem Resources.field_MaxReservationsPerIP_or (k : String) (j : Json) (v : Resources)
    (d : decodeState) :
    (Resources.field k j v d).1.MaxReservationsPerIP = v.MaxReservationsPerIP ∨
    (keyMatches k "MaxReservationsPerIP" = true ∧
      (Resources.field k j v d).1.MaxReservationsPerIP = (storeInt "int" j v.MaxReservationsPerIP d).1) := by
  unfold Resources.field
  split_ifs <;> simp_all

theorem Resources.field_MaxReservationsPerASN_or (k : String) (j : Json) (v : Resources)
    (d : decodeState) :
    (Resources.field k j v d).1.MaxReservationsPerASN = v.MaxReservationsPerASN ∨
    (keyMatches k "MaxReservationsPerASN" = true ∧
      (Resources.field k j v d).1.MaxReservationsPerASN = (storeInt "int" j v.MaxReservationsPerASN d).1) := by
  unfold Resources.field
  split_ifs <;> simp_all

/-- A value the file gives for `Limit` that is not `null` and does not name the
field `get` reads leaves a non-nil pointer non-nil and the field as it was. -/
theorem storeLimit_inv (get : RelayLimit → Int) (name : String) (goType : String) (c : Int)
    (hfield : ∀ k j v d, get (RelayLimit.field k j v d).1 = get v ∨
      (keyMatches k name = true ∧
        get (RelayLimit.field k j v d).1 = (storeInt goType j (get v) d).1))
    (j : Json) (v : Option RelayLimit) (d : decodeState)
    (hj : mentions [name] j = false ∧ setsNull [] j = false)
    (hv : v.map get = some c) :
    (storeLimit j v d).1.map get = some c := by
  rcases v with _ | x
  · simp at hv
  · have hx : get x = c := by simpa using hv
    have key : get (object "relay.RelayLimit" RelayLimit.field j x d).1 = c :=
      object_inv_step "relay.RelayLimit" RelayLimit.field get (fun t => t = c) name
        (storeInt goType) (fun j2 => mentions [] j2 = false) hfield
        (fun j2 _ _ hp _ => absurd hp (fun h => mentions_nil_ne_false j2 h)) j x d
        (mentions_cons_false name [] j hj.1) hx
    cases j with
    | null => simp [setsNull] at hj
    | _ => simpa [storeLimit] using key

/-- The frame of `unmarshal` for a field of `Resources` that is not behind the
pointer. -/
theorem unmarshal_resources_inv {α : Type} (sub : Resources → α) (name : String)
    (dec : Json → α → decodeState → α × decodeState)
    (hfield : ∀ k j v d, sub (Resources.field k j v d).1 = sub v ∨
      (keyMatches k name = true ∧ sub (Resources.field k j v d).1 = (dec j (sub v) d).1))
    (item : Json) (cfg : Config Resources)
    (h : mentions ["RelayV2", "Resources", name] item = false) :
    sub (unmarshal libp2p item cfg).1.RelayV2.Resources = sub cfg.RelayV2.Resources := by
  refine object_inv_step "relaydaemon.Config" (Config.field libp2p) (fun c => c.RelayV2)
    (fun t => sub t.Resources = sub cfg.RelayV2.Resources) "RelayV2"
    (object "relaydaemon.RelayV2Config" (RelayV2Config.field libp2p))
    (fun j => mentions ["Resources", name] j = false) (Config.field_RelayV2 libp2p) ?_
    item cfg ⟨none⟩ (mentions_cons_false "RelayV2" ["Resources", name] item h) rfl
  intro j v d hj hv
  refine object_inv_step "relaydaemon.RelayV2Config" (RelayV2Config.field libp2p)
    (fun t => t.Resources) (fun r => sub r = sub cfg.RelayV2.Resources) "Resources"
    libp2p.unmarshalResources (fun j => mentions [name] j = false)
    (RelayV2Config.field_Resources_or libp2p) ?_ j v d
    (mentions_cons_false "Resources" [name] j hj) hv
  intro j2 v2 d2 hj2 hv2
  exact object_inv_step "relay.Resources" Resources.field sub
    (fun a => a = sub cfg.RelayV2.Resources) name dec (fun j3 => mentions [] j3 = false)
    hfield (fun j3 _ _ hp _ => absurd hp (fun h => mentions_nil_ne_false j3 h)) j2 v2 d2
    (mentions_cons_false name [] j2 hj2) hv2

/-- The frame of `unmarshal` for a field of the `RelayLimit` behind the pointer
`Limit`, when the pointer is not nil and the file does not set it to nil. -/
theorem unmarshal_limit_inv (get : RelayLimit → Int) (name : String) (goType : String)
    (c : Int)
    (hfield : ∀ k j v d, get (RelayLimit.field k j v d).1 = get v ∨
      (keyMatches k name = true ∧
        get (RelayLimit.field k j v d).1 = (storeInt goType j (get v) d).1))
    (item : Json) (cfg : Config Resources)
    (h : mentions ["RelayV2", "Resources", "Limit", name] item = false)
    (hnull : setsNull ["RelayV2", "Resources", "Limit"] item = false)
    (hv : cfg.RelayV2.Resources.Limit.map get = some c) :
    (unmarshal libp2p item cfg).1.RelayV2.Resources.Limit.map get = some c := by
  refine object_inv_step "relaydaemon.Config" (Config.field libp2p) (fun c => c.RelayV2)
    (fun t => t.Resources.Limit.map get = some c) "RelayV2"
    (object "relaydaemon.RelayV2Config" (RelayV2Config.field libp2p))
    (fun j => mentions ["Resources", "Limit", name] j = false ∧
      setsNull ["Resources", "Limit"] j = false) (Config.field_RelayV2 libp2p) ?_
    item cfg ⟨none⟩
    (mentions_setsNull_cons_false "RelayV2" ["Resources", "Limit", name]
      ["Resources", "Limit"] item h hnull) hv
  intro j v d hj hv
  refine object_inv_step "relaydaemon.RelayV2Config" (RelayV2Config.field libp2p)
    (fun t => t.Resources) (fun r => r.Limit.map get = some c) "Resources"
    libp2p.unmarshalResources
    (fun j => mentions ["Limit", name] j = false ∧ setsNull ["Limit"] j = false)
    (RelayV2Config.field_Resources_or libp2p) ?_ j v d
    (mentions_setsNull_cons_false "Resources" ["Limit", name] ["Limit"] j hj.1 hj.2) hv
  intro j2 v2 d2 hj2 hv2
  exact object_inv_step "relay.Resources" Resources.field (fun r => r.Limit)
    (fun l => l.map get = some c) "Limit" storeLimit
    (fun j3 => mentions [name] j3 = false ∧ setsNull [] j3 = false)
    Resources.field_Limit_or
    (fun j3 v3 d3 hp hI => storeLimit_inv get name goType c hfield j3 v3 d3 hp hI) j2 v2 d2
    (mentions_setsNull_cons_false "Limit" [name] [] j2 hj2.1 hj2.2) hv2

/-- The working copy after `unmarshal`, in the library model `libp2p`, agrees
with the defaults in every field below `RelayV2.Resources` that the JSON value
does not mention, provided, for a field behind the pointer `Limit`, that the
value has no `null` member for `Limit`. -/
theorem unmarshal_resources_frame (item : Json) (f : ResourcesField)
    (h : mentions f.path item = false)
    (hnull : f.behindLimit = true → setsNull limitPath item = false) :
    f.sameIn (unmarshal libp2p item (DefaultConfig libp2p)).1 (DefaultConfig libp2p) := by
  cases f with
  | Limit =>
    exact unmarshal_resources_inv (fun r => r.Limit) "Limit" storeLimit
      Resources.field_Limit_or item _ h
  | ReservationTTL =>
    exact unmarshal_resources_inv (fun r => r.ReservationTTL) "ReservationTTL" _
      Resources.field_ReservationTTL_or item _ h
  | MaxReservations =>
    exact unmarshal_resources_inv (fun r => r.MaxReservations) "MaxReservations" _
      Resources.field_MaxReservations_or item _ h
  | MaxCircuits =>
    exact unmarshal_resources_inv (fun r => r.MaxCircuits) "MaxCircuits" _
      Resources.field_MaxCircuits_or item _ h
  | BufferSize =>
    exact unmarshal_resources_inv (fun r => r.BufferSize) "BufferSize" _
      Resources.field_BufferSize_or item _ h
  | MaxReservationsPerIP =>
    exact unmarshal_resources_inv (fun r => r.MaxReservationsPerIP) "MaxReservationsPerIP" _
      Resources.field_MaxReservationsPerIP_or item _ h
  | MaxReservationsPerASN =>
    exact unmarshal_resources_inv (fun r => r.MaxReservationsPerASN) "MaxReservationsPerASN" _
      Resources.field_MaxReservationsPerASN_or item _ h
  | LimitDuration =>
    exact unmarshal_limit_inv (fun l => l.Duration) "Duration" _ _
      RelayLimit.field_Duration_or item _ h (hnull rfl) rfl
  | LimitData =>
    exact unmarshal_limit_inv (fun l => l.Data) "Data" _ _
      RelayLimit.field_Data_or item _ h (hnull rfl) rfl

/-- C4, as amended: for a file that holds a JSON value and for which
`LoadConfig` returns a nil error, every field of `Config` that the file does
not mention (no member, along the path of the field, whose key the decoder
pairs with the field name) has the value it has in `DefaultConfig()`. This
holds for the fields declared in `config.go` with any library behind
`relayv2.Resources`, and, in the library model `libp2p`, for the fields below
`RelayV2.Resources`; for the two fields behind the pointer `Limit` it holds
when no member of the file sets `Limit` to `null`. A file
`{"ConnMgr": {"ConnMgrHi": hi}}` with `hi` an `int64` loads without error and
changes `ConnMgrHi` alone, and the file `{}` loads without error and yields
exactly `DefaultConfig()`. -/
theorem LoadConfig_overrides_only_mentioned (fs : FileSystem) (cfgPath : String) (item : Json)
    (hpath : cfgPath ≠ "") (hopen : fs.Open cfgPath = .ok (.value item)) :
    ((LoadConfig relayv2 fs cfgPath).err = none →
      ∀ f : Field, mentions f.path item = false →
        f.sameIn (LoadConfig relayv2 fs cfgPath).cfg (DefaultConfig relayv2)) ∧
    ((LoadConfig libp2p fs cfgPath).err = none →
      ∀ f : ResourcesField, mentions f.path item = false →
        (f.behindLimit = true → setsNull limitPath item = false) →
        f.sameIn (LoadConfig libp2p fs cfgPath).cfg (DefaultConfig libp2p)) ∧
    (∀ hi : Int, minInt64 ≤ hi → hi ≤ maxInt64 →
      item = .obj [("ConnMgr", .obj [("ConnMgrHi", .num (.int hi))])] →
      (LoadConfig relayv2 fs cfgPath).err = none ∧
      (LoadConfig relayv2 fs cfgPath).cfg =
        { DefaultConfig relayv2 with
          ConnMgr := { ConnMgrLo := 512, ConnMgrHi := hi, ConnMgrGrace := 2 * Minute } }) ∧
    (item = .obj [] →
      (LoadConfig relayv2 fs cfgPath).err = none ∧
      (LoadConfig relayv2 fs cfgPath).cfg = DefaultConfig relayv2) := by
  refine ⟨?_, ?_, ?_, ?_⟩
  · intro hok f hf
    rw [(LoadConfig_cfg_of_ok relayv2 fs cfgPath item hpath hopen hok).2]
    exact unmarshal_frame relayv2 item (DefaultConfig relayv2) f hf
  · intro hok f hf hnull
    rw [(LoadConfig_cfg_of_ok libp2p fs cfgPath item hpath hopen hok).2]
    exact unmarshal_resources_frame item f hf hnull
  · intro hi hlo hhi hitem
    subst hitem
    have hdec : Decode relayv2 (.value (.obj [("ConnMgr", .obj [("ConnMgrHi", .num (.int hi))])]))
        (DefaultConfig relayv2) =
        ({ DefaultConfig relayv2 with
            ConnMgr := { ConnMgrLo := 512, ConnMgrHi := hi, ConnMgrGrace := 2 * Minute } },
          none) := by
      have h1 : keyMatches "ConnMgr" "Network" = false := by decide
      have h2 : keyMatches "ConnMgr" "ConnMgr" = true := by decide
      have h3 : keyMatches "ConnMgrHi" "ConnMgrLo" = false := by decide
      have h4 : keyMatches "ConnMgrHi" "ConnMgrHi" = true := by decide
      simp [Decode, unmarshal, object, Config.field, ConnMgrConfig.field, storeInt, h1, h2,
        h3, h4, hlo, hhi, DefaultConfig]
    rw [LoadConfig_of_decode_ok relayv2 fs cfgPath _ _ hpath hopen hdec]
    exact ⟨rfl, rfl⟩
  · intro hitem
    subst hitem
    have hdec : Decode relayv2 (.value (.obj [])) (DefaultConfig relayv2) =
        (DefaultConfig relayv2, none) := rfl
    rw [LoadConfig_of_decode_ok relayv2 fs cfgPath _ _ hpath hopen hdec]
    exact ⟨rfl, rfl⟩

end Frame

/-! ## Arrays of strings -/

section Lists

variable {R : Type} (relayv2 : Relayv2 R)

theorem foldName_eq_of_keyMatches {k f : String} (h : keyMatches k f = true) :
    foldName k = foldName f := by
  unfold keyMatches at h
  simp only [Bool.or_eq_true, decide_eq_true_eq] at h
  rcases h with h | h
  · rw [h]
  · exact h

theorem keyMatches_exclusive {k a b : String} (ha : keyMatches k a = true)
    (hab : foldName a ≠ foldName b) : keyMatches k b = false := by
  cases hb : keyMatches k b with
  | false => rfl
  | true =>
    exact absurd ((foldName_eq_of_keyMatches ha).symm.trans (foldName_eq_of_keyMatches hb)) hab

theorem arrayElems_strings (ss : List String) (cells : List String) (d : decodeState) :
    arrayElems (ss.map .str) cells d = (ss, d) := by
  induction ss generalizing cells d with
  | nil => rfl
  | cons s rest ih => simp [arrayElems, storeString, ih]

theorem storeSlice_strings (ss : List String) (v : Slice) (d : decodeState) :
    (storeSlice (.arr (ss.map .str)) v d).1.toList = ss ∧
    (storeSlice (.arr (ss.map .str)) v d).2 = d := by
  cases ss with
  | nil => exact ⟨rfl, rfl⟩
  | cons s rest =>
    have h := arrayElems_strings (s :: rest) v.cells d
    simp only [List.map_cons] at h
    simp only [List.map_cons, storeSlice, h, Slice.toList, and_self]

theorem foldl_last_write {S : Type}
    (field : String → Json → S → decodeState → S × decodeState)
    (get : S → Slice) (name : String)
    (hwrite : ∀ k j v d, keyMatches k name = true →
      get (field k j v d).1 = (storeSlice j (get v) d).1)
    (hframe : ∀ k j v d, keyMatches k name = false → get (field k j v d).1 = get v)
    (npre npost : List (String × Json)) (k2 : String) (ss : List String)
    (hk2 : keyMatches k2 name = true)
    (hnpost : ∀ kv ∈ npost, keyMatches kv.1 name = false) (v : S) (d : decodeState) :
    (get ((npre ++ (k2, Json.arr (ss.map .str)) :: npost).foldl
      (fun acc kv => field kv.1 kv.2 acc.1 acc.2) (v, d)).1).toList = ss := by
  rw [List.foldl_append, List.foldl_cons]
  rw [foldl_field_frame field get (fun k _ => keyMatches k name = false)
    (fun k j v d hq => hframe k j v d hq) npost hnpost]
  rw [hwrite _ _ _ _ hk2]
  exact (storeSlice_strings ss _ _).1

theorem NetworkConfig.field_write (a : AddrField) (k : String) (j : Json)
    (v : NetworkConfig) (d : decodeState) (h : keyMatches k a.name = true) :
    a.get (NetworkConfig.field k j v d).1 = (storeSlice j (a.get v) d).1 := by
  cases a with
  | ListenAddrs =>
    simp only [AddrField.name] at h
    simp [NetworkConfig.field, h, AddrField.get]
  | AnnounceAddrs =>
    simp only [AddrField.name] at h
    have h1 : keyMatches k "ListenAddrs" = false := keyMatches_exclusive h (by decide)
    simp [NetworkConfig.field, h, h1, AddrField.get]

theorem NetworkConfig.field_keep (a : AddrField) (k : String) (j : Json)
    (v : NetworkConfig) (d : decodeState) (h : keyMatches k a.name = false) :
    a.get (NetworkConfig.field k j v d).1 = a.get v := by
  cases a with
  | ListenAddrs => exact NetworkConfig.field_ListenAddrs k j v d h
  | AnnounceAddrs => exact NetworkConfig.field_AnnounceAddrs k j v d h

theorem Config.field_Network_write (k : String) (j : Json) (v : Config R) (d : decodeState)
    (h : keyMatches k "Network" = true) :
    (Config.field relayv2 k j v d).1.Network =
      (object "relaydaemon.NetworkConfig" NetworkConfig.field j v.Network d).1 := by
  simp [Config.field, h]

/-- The value `unmarshal` leaves in a list field of `Network` whose last
member in the file is an array of strings: those strings. -/
theorem unmarshal_addr_field (a : AddrField) (pre post npre npost : List (String × Json))
    (k k2 : String) (ss : List String) (cfg : Config R)
    (hk : keyMatches k "Network" = true) (hk2 : keyMatches k2 a.name = true)
    (hnpost : ∀ kv ∈ npost, keyMatches kv.1 a.name = false)
    (hpost : mentions ["Network", a.name] (.obj post) = false) :
    (a.get (unmarshal relayv2 (.obj (pre ++
      (k, .obj (npre ++ (k2, .arr (ss.map .str)) :: npost)) :: post)) cfg).1.Network).toList
      = ss := by
  simp only [unmarshal, object]
  rw [List.foldl_append, List.foldl_cons]
  have hQ : ∀ k j (v : Config R) d,
      (keyMatches k "Network" = false ∨ mentions [a.name] j = false) →
      a.get (Config.field relayv2 k j v d).1.Network = a.get v.Network := by
    intro k j v d hq
    rcases Config.field_Network relayv2 k j v d with hsame | ⟨hm, heq⟩
    · rw [hsame]
    · rcases hq with hno | hno
      · rw [hno] at hm
        exact absurd hm (by decide)
      · rw [heq]
        exact object_frame _ NetworkConfig.field a.get (fun k _ => keyMatches k a.name = false)
          (fun k j v d hq => NetworkConfig.field_keep a k j v d hq) j
          (mentions_one_false a.name j hno) v.Network d
  rw [foldl_field_frame (Config.field relayv2) (fun c => a.get c.Network)
    (fun k j => keyMatches k "Network" = false ∨ mentions [a.name] j = false) hQ post
    (mentions_two_false "Network" a.name (.obj post) hpost post rfl)]
  rw [Config.field_Network_write relayv2 _ _ _ _ hk]
  exact foldl_last_write NetworkConfig.field a.get a.name
    (fun k j v d h => NetworkConfig.field_write a k j v d h)
    (fun k j v d h => NetworkConfig.field_keep a k j v d h) npre npost k2 ss hk2 hnpost _ _

/-- C10, as amended: when `LoadConfig` returns a nil error for a file whose
last member for `Network.ListenAddrs` (or `Network.AnnounceAddrs`) is a JSON
array of strings, the list returned for that field is exactly that array, in
file order: a default address is in it only if the file repeats it, and an
empty array yields an empty list. -/
theorem LoadConfig_replaces_address_lists (fs : FileSystem) (cfgPath : String) (a : AddrField)
    (pre post npre npost : List (String × Json)) (k k2 : String) (ss : List String)
    (hpath : cfgPath ≠ "")
    (hopen : fs.Open cfgPath = .ok (.value (.obj (pre ++
      (k, .obj (npre ++ (k2, .arr (ss.map .str)) :: npost)) :: post))))
    (hk : keyMatches k "Network" = true) (hk2 : keyMatches k2 a.name = true)
    (hnpost : ∀ kv ∈ npost, keyMatches kv.1 a.name = false)
    (hpost : mentions ["Network", a.name] (.obj post) = false)
    (hok : (LoadConfig relayv2 fs cfgPath).err = none) :
    (a.get (LoadConfig relayv2 fs cfgPath).cfg.Network).toList = ss ∧
    (∀ addr ∈ a.defaults,
      addr ∈ (a.get (LoadConfig relayv2 fs cfgPath).cfg.Network).toList → addr ∈ ss) ∧
    (ss = [] → (a.get (LoadConfig relayv2 fs cfgPath).cfg.Network).len = 0) := by
  have hlist : (a.get (LoadConfig relayv2 fs cfgPath).cfg.Network).toList = ss := by
    rw [(LoadConfig_cfg_of_ok relayv2 fs cfgPath _ hpath hopen hok).2]
    exact unmarshal_addr_field relayv2 a pre post npre npost k k2 ss _ hk hk2 hnpost hpost
  refine ⟨hlist, ?_, ?_⟩
  · intro addr _ hmem
    rw [hlist] at hmem
    exact hmem
  · intro hnil
    rw [Slice.len, hlist, hnil]
    rfl

/-- C6, as amended: `LoadConfig` does not check ACL entries. For all lists of
strings `peers` and `subnets`, identifiers or not, the file
`{"ACL": {"AllowPeers": peers, "AllowSubnets": subnets}}` loads with a nil
error and the returned `Config` carries exactly those strings. -/
theorem LoadConfig_keeps_acl_entries (fs : FileSystem) (cfgPath : String)
    (peers subnets : List String)
    (hpath : cfgPath ≠ "")
    (hopen : fs.Open cfgPath = .ok (.value (.obj [("ACL",
      .obj [("AllowPeers", .arr (peers.map .str)),
            ("AllowSubnets", .arr (subnets.map .str))])]))) :
    (LoadConfig relayv2 fs cfgPath).err = none ∧
    (LoadConfig relayv2 fs cfgPath).cfg.ACL.AllowPeers.toList = peers ∧
    (LoadConfig relayv2 fs cfgPath).cfg.ACL.AllowSubnets.toList = subnets := by
  have h1 : keyMatches "ACL" "Network" = false := by decide
  have h2 : keyMatches "ACL" "ConnMgr" = false := by decide
  have h3 : keyMatches "ACL" "RelayV2" = false := by decide
  have h4 : keyMatches "ACL" "ACL" = true := by decide
  have h5 : keyMatches "AllowPeers" "AllowPeers" = true := by decide
  have h6 : keyMatches "AllowSubnets" "AllowPeers" = false := by decide
  have h7 : keyMatches "AllowSubnets" "AllowSubnets" = true := by decide
  have hp := storeSlice_strings peers Slice.nil ⟨none⟩
  have hs := storeSlice_strings subnets Slice.nil ⟨none⟩
  have hdec : Decode relayv2 (.value (.obj [("ACL",
      .obj [("AllowPeers", .arr (peers.map .str)),
            ("AllowSubnets", .arr (subnets.map .str))])])) (DefaultConfig relayv2) =
      ({ DefaultConfig relayv2 with
          ACL := { AllowPeers := (storeSlice (.arr (peers.map .str)) Slice.nil ⟨none⟩).1,
                   AllowSubnets := (storeSlice (.arr (subnets.map .str)) Slice.nil ⟨none⟩).1 } },
        none) := by
    simp [Decode, unmarshal, object, Config.field, ACLConfig.field, h1, h2, h3, h4, h5, h6,
      h7, DefaultConfig, hp.2, hs.2]
  rw [LoadConfig_of_decode_ok relayv2 fs cfgPath _ _ hpath hopen hdec]
  exact ⟨rfl, hp.1, hs.1⟩

end Lists

/-- C2 at `badPortFile`: `ConnMgrHi` was overwritten in the working copy, and
the caller still gets the zero `Config` with the decoder error. -/
theorem LoadConfig_malformed_file_witness :
    "relay.json" ≠ "" ∧
    (oneFileFS "relay.json" badPortFile).Open "relay.json" = .ok badPortFile ∧
    Decode libp2p badPortFile (DefaultConfig libp2p) =
      (badPortWork, some (.unmarshalType "string" "int")) ∧
    badPortWork.ConnMgr.ConnMgrHi = 1000 ∧
    (LoadConfig libp2p (oneFileFS "relay.json" badPortFile) "relay.json").err =
      some (.unmarshalType "string" "int") ∧
    (LoadConfig libp2p (oneFileFS "relay.json" badPortFile) "relay.json").cfg =
      zeroConfig libp2p ∧
    (LoadConfig libp2p (oneFileFS "relay.json" badPortFile) "relay.json").cfg ≠
      DefaultConfig libp2p :=
  ⟨by decide, rfl, rfl, rfl,
    LoadConfig_malformed_file libp2p (oneFileFS "relay.json" badPortFile) "relay.json"
      badPortFile badPortWork (.unmarshalType "string" "int") (by decide) rfl rfl⟩

/-- C3 at a file system without files: opening `relay.json` fails and the
error comes back unchanged. -/
theorem LoadConfig_unreadable_path_witness :
    "relay.json" ≠ "" ∧
    emptyFS.Open "relay.json" =
      .error (.pathError "relay.json" "no such file or directory") ∧
    (LoadConfig libp2p emptyFS "relay.json").err =
      some (.pathError "relay.json" "no such file or directory") ∧
    (LoadConfig libp2p emptyFS "relay.json").cfg = zeroConfig libp2p ∧
    (LoadConfig libp2p emptyFS "relay.json").cfg ≠ DefaultConfig libp2p ∧
    (LoadConfig libp2p emptyFS "relay.json").ops = [.openFile "relay.json"] :=
  ⟨by decide, rfl,
    LoadConfig_unreadable_path libp2p emptyFS "relay.json"
      (.pathError "relay.json" "no such file or directory") (by decide) rfl⟩


/-! ## The ACL evaluator -/

/-- C7: when `AllowPeers` and `AllowSubnets` are both empty, `ACLCheck` allows
every peer and every address, whatever subnet matching is used; so it does
under the ACL of `DefaultConfig()`. -/
theorem ACLCheck_allows_when_acl_empty {A R : Type} (contains : String → A → Bool)
    (relayv2 : Relayv2 R) (acl : ACLConfig) (peer : PeerRef) (addr : A) :
    (acl.AllowPeers.len = 0 → acl.AllowSubnets.len = 0 →
      ACLCheck contains acl peer addr = true) ∧
    ACLCheck contains (DefaultConfig relayv2).ACL peer addr = true := by
  constructor
  · intro hp hs
    simp [ACLCheck, Allow, hp, hs]
  · simp [ACLCheck, Allow, DefaultConfig, Slice.len, Slice.toList]

/-- C7 at an ACL with two empty, non-nil lists and at the default ACL, with a
subnet matching that contains nothing. -/
theorem ACLCheck_allows_when_acl_empty_witness :
    emptyACL.AllowPeers.len = 0 ∧ emptyACL.AllowSubnets.len = 0 ∧
    ACLCheck (fun _ (_ : String) => false) emptyACL "P2" "203.0.113.7" = true ∧
    ACLCheck (fun _ (_ : String) => false) (DefaultConfig libp2p).ACL "P2" "203.0.113.7"
      = true :=
  ⟨rfl, rfl,
    (ACLCheck_allows_when_acl_empty (fun _ (_ : String) => false) libp2p emptyACL "P2"
      "203.0.113.7").1 rfl rfl,
    (ACLCheck_allows_when_acl_empty (fun _ (_ : String) => false) libp2p emptyACL "P2"
      "203.0.113.7").2⟩

/-! ## The resource ledger -/

theorem Token.peerShare_nonneg (p : PeerRef) (k : Kind) (t : Token) :
    0 ≤ Token.peerShare p k t := by
  unfold Token.peerShare
  split_ifs
  · exact Int.ofNat_nonneg _
  · exact le_refl _

theorem Token.globalShare_nonneg (k : Kind) (t : Token) : 0 ≤ Token.globalShare k t := by
  unfold Token.globalShare
  split_ifs
  · exact Int.ofNat_nonneg _
  · exact le_refl _

theorem Ledger.Consistent.peer_nonneg {limits : ResourceLimits} {l : Ledger}
    (h : l.Consistent limits) (p : PeerRef) (k : Kind) : 0 ≤ l.peerCount p k := by
  rw [h.peer_sum p k]
  apply List.sum_nonneg
  intro x hx
  rcases List.mem_map.mp hx with ⟨t, _, rfl⟩
  exact Token.peerShare_nonneg p k t

theorem Ledger.Consistent.global_nonneg {limits : ResourceLimits} {l : Ledger}
    (h : l.Consistent limits) (k : Kind) : 0 ≤ l.globalCount k := by
  rw [h.global_sum k]
  apply List.sum_nonneg
  intro x hx
  rcases List.mem_map.mp hx with ⟨t, _, rfl⟩
  exact Token.globalShare_nonneg k t

theorem Ledger.consistent_empty (limits : ResourceLimits) : Ledger.empty.Consistent limits where
  peer_sum := fun _ _ => rfl
  global_sum := fun _ => rfl
  peer_le := fun _ k => Int.ofNat_nonneg (limits.peer k)
  global_le := fun k => Int.ofNat_nonneg (limits.global k)

theorem TryReserve_failed (limits : ResourceLimits) (l : Ledger) (peer : PeerRef)
    (kind : Kind) (amount : Nat) (h : (TryReserve limits l peer kind amount).2 = none) :
    (TryReserve limits l peer kind amount).1 = l := by
  by_cases hcheck : l.peerCount peer kind + amount ≤ limits.peer kind ∧
      l.globalCount kind + amount ≤ limits.global kind
  · simp [TryReserve, hcheck] at h
  · simp [TryReserve, hcheck]

theorem TryReserve_consistent (limits : ResourceLimits) (l : Ledger) (peer : PeerRef)
    (kind : Kind) (amount : Nat) (h : l.Consistent limits) :
    (TryReserve limits l peer kind amount).1.Consistent limits := by
  unfold TryReserve
  split_ifs with hcheck
  · refine ⟨?_, ?_, ?_, ?_⟩
    · intro p k
      simp only [List.map_cons, List.sum_cons, Token.peerShare]
      rw [← h.peer_sum p k]
      split_ifs <;> omega
    · intro k
      simp only [List.map_cons, List.sum_cons, Token.globalShare]
      rw [← h.global_sum k]
      split_ifs <;> omega
    · intro p k
      show (if p = peer ∧ k = kind then l.peerCount p k + amount else l.peerCount p k) ≤ _
      split_ifs with hpk
      · rw [hpk.1, hpk.2]
        exact hcheck.1
      · exact h.peer_le p k
    · intro k
      show (if k = kind then l.globalCount k + amount else l.globalCount k) ≤ _
      split_ifs with hk
      · rw [hk]
        exact hcheck.2
      · exact h.global_le k
  · exact h

theorem Release_consistent (limits : ResourceLimits) (l : Ledger) (tok : Token)
    (h : l.Consistent limits) : (Release l tok).1.Consistent limits := by
  unfold Release
  split_ifs with hlive
  · have hp : ∀ p k, Token.peerShare p k tok +
        ((l.live.erase tok).map (Token.peerShare p k)).sum = l.peerCount p k := by
      intro p k
      rw [h.peer_sum p k]
      exact List.sum_map_erase (Token.peerShare p k) hlive
    have hg : ∀ k, Token.globalShare k tok +
        ((l.live.erase tok).map (Token.globalShare k)).sum = l.globalCount k := by
      intro k
      rw [h.global_sum k]
      exact List.sum_map_erase (Token.globalShare k) hlive
    refine ⟨?_, ?_, ?_, ?_⟩
    · intro p k
      have := hp p k
      simp only [Token.peerShare] at this ⊢
      split_ifs at this ⊢ <;> omega
    · intro k
      have := hg k
      simp only [Token.globalShare] at this ⊢
      split_ifs at this ⊢ <;> omega
    · intro p k
      show (if p = tok.peer ∧ k = tok.kind then l.peerCount p k - tok.amount
        else l.peerCount p k) ≤ _
      have := h.peer_le p k
      split_ifs <;> omega
    · intro k
      show (if k = tok.kind then l.globalCount k - tok.amount else l.globalCount k) ≤ _
      have := h.global_le k
      split_ifs <;> omega
  · exact h

theorem Ledger.step_consistent (limits : ResourceLimits) (l : Ledger) (op : Op)
    (h : l.Consistent limits) : (l.step limits op).Consistent limits := by
  cases op with
  | tryReserve peer kind amount => exact TryReserve_consistent limits l peer kind amount h
  | release tok => exact Release_consistent limits l tok h

theorem Ledger.run_consistent (limits : ResourceLimits) (l : Ledger) (ops : List Op)
    (h : l.Consistent limits) : (l.run limits ops).Consistent limits := by
  induction ops generalizing l with
  | nil => exact h
  | cons op rest ih => exact ih (l.step limits op) (Ledger.step_consistent limits l op h)

/-- C8: after every sequence of `TryReserve` and `Release` calls on the empty
ledger, every peer-local counter and every global counter is at least zero and
at most its configured limit; and a `TryReserve` that fails returns the ledger
it was given, so no counter changes. -/
theorem Ledger.counters_within_limits (limits : ResourceLimits) (ops : List Op)
    (peer : PeerRef) (kind : Kind) :
    (0 ≤ (Ledger.empty.run limits ops).peerCount peer kind ∧
     (Ledger.empty.run limits ops).peerCount peer kind ≤ limits.peer kind ∧
     0 ≤ (Ledger.empty.run limits ops).globalCount kind ∧
     (Ledger.empty.run limits ops).globalCount kind ≤ limits.global kind) ∧
    (∀ (l : Ledger) (amount : Nat), (TryReserve limits l peer kind amount).2 = none →
      (TryReserve limits l peer kind amount).1 = l) := by
  have h := Ledger.run_consistent limits Ledger.empty ops (Ledger.consistent_empty limits)
  exact ⟨⟨h.peer_nonneg peer kind, h.peer_le peer kind, h.global_nonneg kind,
    h.global_le kind⟩, fun l amount hfail => TryReserve_failed limits l peer kind amount hfail⟩

/-- C8 at the example of §8: the third request is refused and changes nothing,
and the counters stay between zero and the limits to the end. -/
theorem Ledger.counters_within_limits_witness :
    (TryReserve twoReservations (Ledger.empty.run twoReservations (exampleOps.take 2)) "P3"
      .reservation 1).2 = none ∧
    (TryReserve twoReservations (Ledger.empty.run twoReservations (exampleOps.take 2)) "P3"
      .reservation 1).1 = Ledger.empty.run twoReservations (exampleOps.take 2) ∧
    (Ledger.empty.run twoReservations exampleOps).globalCount .reservation = 2 ∧
    (0 ≤ (Ledger.empty.run twoReservations exampleOps).peerCount "P3" .reservation ∧
     (Ledger.empty.run twoReservations exampleOps).peerCount "P3" .reservation ≤
       twoReservations.peer .reservation ∧
     0 ≤ (Ledger.empty.run twoReservations exampleOps).globalCount .reservation ∧
     (Ledger.empty.run twoReservations exampleOps).globalCount .reservation ≤
       twoReservations.global .reservation) :=
  ⟨rfl,
    (Ledger.counters_within_limits twoReservations exampleOps "P3" .reservation).2
      (Ledger.empty.run twoReservations (exampleOps.take 2)) 1 rfl,
    rfl,
    (Ledger.counters_within_limits twoReservations exampleOps "P3" .reservation).1⟩

/-! ## `LoadConfig` on the example files -/

/-- C4 fails as stated at two files. `{"Daemon": {"PprofPort": "x"}}` is a
well-formed JSON object that does not mention `ConnMgr.ConnMgrLo`; the string
does not fit the `int` field and `LoadConfig` returns the zero `Config`, whose
`ConnMgrLo` is 0 and not the default 512.
`{"RelayV2": {"Resources": {"Limit": null, "limit": {"Duration": 7}}}}` loads
with a nil error and does not mention `Limit.Data`; the `null` sets the
pointer to nil, the next member stores into a fresh `RelayLimit`, and `Data`
comes back 0 and not the default 131072. -/
theorem LoadConfig_unmentioned_field_not_default :
    (mentions Field.ConnMgrLo.path portStringJson = false ∧
     (LoadConfig libp2p (oneFileFS "relay.json" (.value portStringJson)) "relay.json").err =
       some (.unmarshalType "string" "int") ∧
     (LoadConfig libp2p (oneFileFS "relay.json" (.value portStringJson))
       "relay.json").cfg.ConnMgr.ConnMgrLo = 0 ∧
     (DefaultConfig libp2p).ConnMgr.ConnMgrLo = 512 ∧
     ¬ Field.ConnMgrLo.sameIn
       (LoadConfig libp2p (oneFileFS "relay.json" (.value portStringJson)) "relay.json").cfg
       (DefaultConfig libp2p)) ∧
    (mentions ResourcesField.LimitData.path limitNullJson = false ∧
     (LoadConfig libp2p (oneFileFS "relay.json" (.value limitNullJson)) "relay.json").err =
       none ∧
     (LoadConfig libp2p (oneFileFS "relay.json" (.value limitNullJson))
       "relay.json").cfg.RelayV2.Resources.Limit = some { Duration := 7, Data := 0 } ∧
     (DefaultConfig libp2p).RelayV2.Resources.Limit =
       some { Duration := 2 * Minute, Data := 131072 } ∧
     ¬ ResourcesField.LimitData.sameIn
       (LoadConfig libp2p (oneFileFS "relay.json" (.value limitNullJson)) "relay.json").cfg
       (DefaultConfig libp2p)) :=
  ⟨⟨by decide, rfl, rfl, rfl, (by decide : ¬ ((0 : Int) = 512))⟩,
   ⟨by decide, rfl, rfl, rfl, (by decide : ¬ (some (0 : Int) = some 131072))⟩⟩

/-- C4 at two files. `{"ConnMgr": {"ConnMgrHi": 1000}}` loads without error,
`ConnMgrHi` is 1000, and `ConnMgrLo`, `ACL`, `RelayV2`, `Network` and `Daemon`
are those of `DefaultConfig()`.
`{"RelayV2": {"Resources": {"Limit": {"Duration": 7}, "MaxCircuits": 32}}}`
loads without error and changes those two fields; `Limit.Data` and
`MaxReservations`, which it does not mention, keep their defaults. -/
theorem LoadConfig_overrides_only_mentioned_witness :
    "relay.json" ≠ "" ∧
    (oneFileFS "relay.json" (.value hiOnlyJson)).Open "relay.json" = .ok (.value hiOnlyJson) ∧
    (LoadConfig libp2p (oneFileFS "relay.json" (.value hiOnlyJson)) "relay.json").err = none ∧
    (LoadConfig libp2p (oneFileFS "relay.json" (.value hiOnlyJson))
      "relay.json").cfg.ConnMgr.ConnMgrHi = 1000 ∧
    Field.ConnMgrLo.sameIn
      (LoadConfig libp2p (oneFileFS "relay.json" (.value hiOnlyJson)) "relay.json").cfg
      (DefaultConfig libp2p) ∧
    Field.ACL.sameIn
      (LoadConfig libp2p (oneFileFS "relay.json" (.value hiOnlyJson)) "relay.json").cfg
      (DefaultConfig libp2p) ∧
    Field.RelayV2.sameIn
      (LoadConfig libp2p (oneFileFS "relay.json" (.value hiOnlyJson)) "relay.json").cfg
      (DefaultConfig libp2p) ∧
    Field.Network.sameIn
      (LoadConfig libp2p (oneFileFS "relay.json" (.value hiOnlyJson)) "relay.json").cfg
      (DefaultConfig libp2p) ∧
    Field.Daemon.sameIn
      (LoadConfig libp2p (oneFileFS "relay.json" (.value hiOnlyJson)) "relay.json").cfg
      (DefaultConfig libp2p) ∧
    (LoadConfig libp2p (oneFileFS "relay.json" (.value hiOnlyJson)) "relay.json").cfg =
      { DefaultConfig libp2p with
        ConnMgr := { ConnMgrLo := 512, ConnMgrHi := 1000, ConnMgrGrace := 2 * Minute } } ∧
    (LoadConfig libp2p (oneFileFS "relay.json" (.value limitDurationJson)) "relay.json").err =
      none ∧
    (LoadConfig libp2p (oneFileFS "relay.json" (.value limitDurationJson))
      "relay.json").cfg.RelayV2.Resources.Limit = some { Duration := 7, Data := 131072 } ∧
    (LoadConfig libp2p (oneFileFS "relay.json" (.value limitDurationJson))
      "relay.json").cfg.RelayV2.Resources.MaxCircuits = 32 ∧
    setsNull limitPath limitDurationJson = false ∧
    ResourcesField.LimitData.sameIn
      (LoadConfig libp2p (oneFileFS "relay.json" (.value limitDurationJson)) "relay.json").cfg
      (DefaultConfig libp2p) ∧
    ResourcesField.MaxReservations.sameIn
      (LoadConfig libp2p (oneFileFS "relay.json" (.value limitDurationJson)) "relay.json").cfg
      (DefaultConfig libp2p) :=
  have h := LoadConfig_overrides_only_mentioned libp2p
    (oneFileFS "relay.json" (.value hiOnlyJson)) "relay.json" hiOnlyJson (by decide) rfl
  have g := LoadConfig_overrides_only_mentioned libp2p
    (oneFileFS "relay.json" (.value limitDurationJson)) "relay.json" limitDurationJson
    (by decide) rfl
  ⟨by decide, rfl, rfl, rfl, h.1 rfl .ConnMgrLo (by decide), h.1 rfl .ACL (by decide),
    h.1 rfl .RelayV2 (by decide), h.1 rfl .Network (by decide), h.1 rfl .Daemon (by decide),
    (h.2.2.1 1000 (by decide) (by decide) rfl).2,
    rfl, rfl, rfl, by decide,
    g.2.1 rfl .LimitData (by decide) (fun _ => by decide),
    g.2.1 rfl .MaxReservations (by decide) (fun _ => by decide)⟩

/-- C10 fails as stated at the file `{"Network": {"ListenAddrs": [null]}}`:
it loads without error, its array holds no string, and the list returned has
one element, the first default listen address, which the `null` left in its
cell. -/
theorem LoadConfig_null_element_keeps_default :
    (LoadConfig libp2p (oneFileFS "relay.json" (.value nullListenJson)) "relay.json").err =
      none ∧
    (LoadConfig libp2p (oneFileFS "relay.json" (.value nullListenJson))
      "relay.json").cfg.Network.ListenAddrs.toList = ["/ip4/0.0.0.0/udp/9095/quic-v1"] ∧
    "/ip4/0.0.0.0/udp/9095/quic-v1" ∈ defaultListenAddrs :=
  ⟨rfl, rfl, by decide⟩

/-- C10 at `twoListenJson`: the last `ListenAddrs` member of the file is an
array of two strings, and the list returned is those two, in file order; of
the six defaults only the one the file repeats is in it. -/
theorem LoadConfig_replaces_address_lists_witness :
    "relay.json" ≠ "" ∧
    (oneFileFS "relay.json" (.value twoListenJson)).Open "relay.json" =
      .ok (.value twoListenJson) ∧
    keyMatches "network" "Network" = true ∧
    keyMatches "listenaddrs" AddrField.ListenAddrs.name = true ∧
    (LoadConfig libp2p (oneFileFS "relay.json" (.value twoListenJson)) "relay.json").err =
      none ∧
    (LoadConfig libp2p (oneFileFS "relay.json" (.value twoListenJson))
      "relay.json").cfg.Network.ListenAddrs.toList =
      ["/ip4/0.0.0.0/tcp/4001", "/ip4/10.0.0.1/tcp/4002"] ∧
    (∀ addr ∈ defaultListenAddrs,
      addr ∈ (LoadConfig libp2p (oneFileFS "relay.json" (.value twoListenJson))
        "relay.json").cfg.Network.ListenAddrs.toList →
      addr ∈ ["/ip4/0.0.0.0/tcp/4001", "/ip4/10.0.0.1/tcp/4002"]) :=
  have h := LoadConfig_replaces_address_lists libp2p
    (oneFileFS "relay.json" (.value twoListenJson)) "relay.json" .ListenAddrs
    [("Daemon", .obj [("PprofPort", .num (.int 7000))])] [("ACL", .null)]
    [("ListenAddrs", .arr [.str "/ip4/0.0.0.0/tcp/1"])] [("AnnounceAddrs", .arr [])]
    "network" "listenaddrs" ["/ip4/0.0.0.0/tcp/4001", "/ip4/10.0.0.1/tcp/4002"]
    (by decide) rfl (by decide) (by decide) (by decide) (by decide) rfl
  ⟨by decide, rfl, by decide, by decide, rfl, h.1, h.2.1⟩

/-- C6 fails as stated at the file
`{"ACL": {"AllowPeers": ["not a peer id"], "AllowSubnets": ["not/a/subnet"]}}`:
`LoadConfig` returns a nil error and a `Config` that carries both strings. -/
theorem LoadConfig_accepts_malformed_acl :
    (LoadConfig libp2p (oneFileFS "relay.json" (.value badAclJson)) "relay.json").err = none ∧
    (LoadConfig libp2p (oneFileFS "relay.json" (.value badAclJson))
      "relay.json").cfg.ACL.AllowPeers.toList = ["not a peer id"] ∧
    (LoadConfig libp2p (oneFileFS "relay.json" (.value badAclJson))
      "relay.json").cfg.ACL.AllowSubnets.toList = ["not/a/subnet"] :=
  ⟨rfl, rfl, rfl⟩

/-- C6, as amended, at a file whose peer list holds the empty string and whose
subnet list holds an address without a mask. -/
theorem LoadConfig_keeps_acl_entries_witness :
    "acl.json" ≠ "" ∧
    (LoadConfig libp2p (oneFileFS "acl.json" (.value (.obj [("ACL",
      .obj [("AllowPeers", .arr ([""].map .str)),
            ("AllowSubnets", .arr (["10.0.0.1"].map .str))])]))) "acl.json").err = none ∧
    (LoadConfig libp2p (oneFileFS "acl.json" (.value (.obj [("ACL",
      .obj [("AllowPeers", .arr ([""].map .str)),
            ("AllowSubnets", .arr (["10.0.0.1"].map .str))])])))
      "acl.json").cfg.ACL.AllowPeers.toList = [""] ∧
    (LoadConfig libp2p (oneFileFS "acl.json" (.value (.obj [("ACL",
      .obj [("AllowPeers", .arr ([""].map .str)),
            ("AllowSubnets", .arr (["10.0.0.1"].map .str))])])))
      "acl.json").cfg.ACL.AllowSubnets.toList = ["10.0.0.1"] :=
  ⟨by decide,
    LoadConfig_keeps_acl_entries libp2p (oneFileFS "acl.json" (.value (.obj [("ACL",
      .obj [("AllowPeers", .arr ([""].map .str)),
            ("AllowSubnets", .arr (["10.0.0.1"].map .str))])]))) "acl.json" [""] ["10.0.0.1"]
      (by decide) rfl⟩

end RelayDaemon
